import Mathlib

/-!
# Verification of the dispatch/cache engine and cluster RPC layer

Shallow embedding of the client's dispatch handlers (`src/gateway/handler.ts`),
the guild-member structure (`src/structures/member.ts`, delivered unnamed) and
the cluster process RPC layer (`src/cluster/process.ts`,
`src/cluster/processchild.ts`).

Entity stores (`BaseCollection` keyed containers with per-kind enable flags)
and the entity structures other than `Member` are not part of the delivered
sources; they are modelled from the specification (spec sections 3 and 4.1)
where needed, and each such definition says so in its doc comment.
-/

namespace Spec2Proof

/-! ## Association-list primitives

JavaScript `Map`s (the `BaseCollection` backing every store) are modelled as
association lists with unique keys.  `lookupKey` is `Map.get`, `listSet` is
`Map.set` (replace in place or append), `eraseKey` is `Map.delete` (keys are
unique in a `Map`, so removing every binding of the key is extensionally the
same). -/

def lookupKey {α β : Type} [DecidableEq α] : List (α × β) → α → Option β
  | [], _ => none
  | (k', v) :: t, k => if k' = k then some v else lookupKey t k

def listSet {α β : Type} [DecidableEq α] : List (α × β) → α → β → List (α × β)
  | [], k, v => [(k, v)]
  | (k', v') :: t, k, v => if k' = k then (k, v) :: t else (k', v') :: listSet t k v

def eraseKey {α β : Type} [DecidableEq α] (l : List (α × β)) (k : α) : List (α × β) :=
  l.filter (fun kv => kv.1 ≠ k)

theorem lookupKey_eraseKey {α β : Type} [DecidableEq α] (l : List (α × β)) (k : α) :
    lookupKey (eraseKey l k) k = none := by
  induction l with
  | nil => rfl
  | cons hd t ih =>
    obtain ⟨a, b⟩ := hd
    by_cases hk : a = k
    · simpa [eraseKey, List.filter, hk] using ih
    · simpa [eraseKey, List.filter, hk, lookupKey] using ih

theorem lookupKey_eraseKey_ne {α β : Type} [DecidableEq α] (l : List (α × β)) (k k' : α)
    (h : k' ≠ k) : lookupKey (eraseKey l k) k' = lookupKey l k' := by
  induction l with
  | nil => rfl
  | cons hd t ih =>
    obtain ⟨a, b⟩ := hd
    by_cases hk : a = k
    · simp only [eraseKey, List.filter] at *
      simpa [hk, lookupKey, Ne.symm h] using ih
    · by_cases hk' : a = k'
      · simp [eraseKey, List.filter, hk, lookupKey, hk', h]
      · simp only [eraseKey, List.filter] at *
        simpa [hk, lookupKey, hk'] using ih

theorem lookupKey_listSet_self {α β : Type} [DecidableEq α] (l : List (α × β)) (k : α) (v : β) :
    lookupKey (listSet l k v) k = some v := by
  induction l with
  | nil => simp [listSet, lookupKey]
  | cons hd t ih =>
    obtain ⟨a, b⟩ := hd
    by_cases hk : a = k
    · simp [listSet, hk, lookupKey]
    · simp [listSet, hk, lookupKey, ih]

theorem lookupKey_listSet_ne {α β : Type} [DecidableEq α] (l : List (α × β)) (k k' : α) (v : β)
    (h : k ≠ k') : lookupKey (listSet l k v) k' = lookupKey l k' := by
  induction l with
  | nil => simp [listSet, lookupKey, h]
  | cons hd t ih =>
    obtain ⟨a, b⟩ := hd
    by_cases hk : a = k
    · subst hk
      simp [listSet, lookupKey, h]
    · simp [listSet, hk, lookupKey, ih]

theorem listSet_ne_nil {α β : Type} [DecidableEq α] (l : List (α × β)) (k : α) (v : β) :
    listSet l k v ≠ [] := by
  cases l with
  | nil => simp [listSet]
  | cons hd t =>
    obtain ⟨a, b⟩ := hd
    by_cases hk : a = k <;> simp [listSet, hk]

theorem lookupKey_map_values {α β : Type} [DecidableEq α] (l : List (α × β)) (k : α)
    (f : β → β) :
    lookupKey (l.map (fun kv => (kv.1, if kv.1 = k then f kv.2 else kv.2))) k =
      (lookupKey l k).map f := by
  induction l with
  | nil => rfl
  | cons hd t ih =>
    obtain ⟨a, b⟩ := hd
    by_cases hk : a = k
    · simp [lookupKey, hk]
    · simp [lookupKey, hk, ih]

theorem lookupKey_map_values_ne {α β : Type} [DecidableEq α] (l : List (α × β)) (k k' : α)
    (f : β → β) (h : k ≠ k') :
    lookupKey (l.map (fun kv => (kv.1, if kv.1 = k then f kv.2 else kv.2))) k' =
      lookupKey l k' := by
  induction l with
  | nil => rfl
  | cons hd t ih =>
    obtain ⟨a, b⟩ := hd
    by_cases hk : a = k'
    · subst hk
      simp [lookupKey, Ne.symm h, ih]
    · simp [lookupKey, hk, ih]

/-! ## Entity structures

`Member` is embedded from the delivered source (`src/unnamed/part_000`,
the guild-member structure).  `Role`, `Guild`, `User`, `Channel`,
`VoiceState`, `Reaction`, `Message` are modelled from the spec (section 3),
since their structure files are not part of the delivered sources. -/

abbrev Snowflake := String

/-- Modelled from the spec: `Role` entity, keyed by role id, carrying the
permissions bitmask, color, position and hoisted flag (spec section 3). -/
structure Role where
  id : Snowflake
  permissions : Int := 0
  color : Int := 0
  position : Int := 0
  hoist : Bool := false
deriving DecidableEq

/-- Modelled from the spec: `Guild` entity with member count, role
collection, unavailable flag and premium subscription count
(spec section 3). -/
structure Guild where
  id : Snowflake
  unavailable : Bool := false
  memberCount : Int := 0
  premiumSubscriptionCount : Int := 0
  roles : List (Snowflake × Role) := []
deriving DecidableEq

/-- Modelled from the spec: the guild's default ("everyone") role is the role
keyed by the guild's own id (spec section 3: "guild channels reference
permission overwrites keyed by ... the guild id itself (the everyone
overwrite)"; every guild implicitly has its default role for every member). -/
def Guild.defaultRole (g : Guild) : Option Role :=
  lookupKey g.roles g.id

/-- Modelled from the spec: `User` entity, one object per user id
(spec section 3). -/
structure User where
  id : Snowflake
  username : String := ""
  bot : Bool := false
deriving DecidableEq

/-- Modelled from the spec: `Channel` entity with nullable guild id,
permission overwrites and DM recipients (spec section 3). -/
structure Channel where
  id : Snowflake
  guildId : Option Snowflake := none
  permissionOverwrites : List Snowflake := []
  recipients : List Snowflake := []
deriving DecidableEq

/-- Modelled from the spec: `VoiceState` entity keyed by
(guild-or-channel server id, user id), with a nullable channel id
(spec section 3). -/
structure VoiceState where
  serverId : Snowflake
  userId : Snowflake
  channelId : Option Snowflake := none
  sessionId : String := ""
deriving DecidableEq

/-- Modelled from the spec: a reaction on a message (count and whether the
local user reacted), held in the message's reaction collection. -/
structure Reaction where
  emojiId : Snowflake
  count : Int := 0
  me : Bool := false
deriving DecidableEq

/-- Modelled from the spec: `Message` entity with author id, channel id,
nullable guild id and a lazily allocated reaction collection
(spec section 3; the `_reactions` field name is the one the handler source
uses). -/
structure Message where
  id : Snowflake
  channelId : Snowflake
  authorId : Snowflake := ""
  guildId : Option Snowflake := none
  reactionsRaw : Option (List (Snowflake × Reaction)) := none
deriving DecidableEq

/-- Modelled from the spec: a presence entry holding the guild ids the
presence is attached to (spec section 3). -/
structure PresenceEntry where
  userId : Snowflake
  guildIds : List Snowflake := []
  status : String := ""
deriving DecidableEq

/-- `Member`, embedded from the delivered guild-member structure source:
fields `deaf`, `guildId`, `hoistedRoleId`, `joinedAtUnix`, `mute`, `nick`,
`premiumSinceUnix`, the user reference (kept as the user's id) and the
private `_roles` collection (`rolesRaw` here), which is `undefined` until a
non-empty role list is merged. -/
structure Member where
  guildId : Snowflake := ""
  userId : Snowflake := ""
  deaf : Bool := false
  mute : Bool := false
  nick : Option String := none
  hoistedRoleId : Option Snowflake := none
  joinedAtUnix : Int := 0
  premiumSinceUnix : Int := 0
  rolesRaw : Option (List (Snowflake × Option Role)) := none
deriving DecidableEq

/-! ## Entity stores

Modelled from the spec (section 4.1): typed keyed containers with
`has`/`get`/`insert`/`delete`; composite kinds add a two-level
`has/get/delete(outerKey, innerKey)`.  A disabled store turns inserts into
no-ops and makes every read return empty/absent. -/

/-- Modelled from the spec: single-key entity store (spec section 4.1). -/
structure Store (α : Type) where
  enabled : Bool := true
  entries : List (Snowflake × α) := []
deriving DecidableEq

def Store.sGet {α : Type} (s : Store α) (k : Snowflake) : Option α :=
  if s.enabled then lookupKey s.entries k else none

def Store.sHas {α : Type} (s : Store α) (k : Snowflake) : Bool :=
  (s.sGet k).isSome

def Store.sInsert {α : Type} (s : Store α) (k : Snowflake) (v : α) : Store α :=
  if s.enabled then { s with entries := listSet s.entries k v } else s

def Store.sDelete {α : Type} (s : Store α) (k : Snowflake) : Store α :=
  { s with entries := eraseKey s.entries k }

/-- In-place mutation of a cached entity (JS object mutation through the
reference returned by `get`). -/
def Store.sModify {α : Type} (s : Store α) (k : Snowflake) (f : α → α) : Store α :=
  { s with entries := s.entries.map (fun kv => (kv.1, if kv.1 = k then f kv.2 else kv.2)) }

/-- The list iterated by a `for ... of` loop over the store: empty when the
store is disabled. -/
def Store.toList {α : Type} (s : Store α) : List (Snowflake × α) :=
  if s.enabled then s.entries else []

/-- Modelled from the spec: composite two-level keyed entity store
(spec section 4.1). -/
structure Store2 (α : Type) where
  enabled : Bool := true
  entries : List (Snowflake × List (Snowflake × α)) := []
deriving DecidableEq

def Store2.sGet1 {α : Type} (s : Store2 α) (k1 : Snowflake) :
    Option (List (Snowflake × α)) :=
  if s.enabled then lookupKey s.entries k1 else none

def Store2.sGet2 {α : Type} (s : Store2 α) (k1 k2 : Snowflake) : Option α :=
  (s.sGet1 k1).bind (fun inner => lookupKey inner k2)

def Store2.sHas2 {α : Type} (s : Store2 α) (k1 k2 : Snowflake) : Bool :=
  (s.sGet2 k1 k2).isSome

def Store2.sInsert2 {α : Type} (s : Store2 α) (k1 k2 : Snowflake) (v : α) : Store2 α :=
  if s.enabled then
    { s with entries :=
        listSet s.entries k1 (listSet ((lookupKey s.entries k1).getD []) k2 v) }
  else s

/-- One-argument `delete(outerKey)`: removes the whole inner collection. -/
def Store2.sDelete1 {α : Type} (s : Store2 α) (k1 : Snowflake) : Store2 α :=
  { s with entries := eraseKey s.entries k1 }

/-- Two-argument `delete(outerKey, innerKey)`. -/
def Store2.sDelete2 {α : Type} (s : Store2 α) (k1 k2 : Snowflake) : Store2 α :=
  { s with entries :=
      s.entries.map (fun kv => (kv.1, if kv.1 = k1 then eraseKey kv.2 k2 else kv.2)) }

/-- In-place mutation of one cached entity of a composite store. -/
def Store2.sModify2 {α : Type} (s : Store2 α) (k1 k2 : Snowflake) (f : α → α) : Store2 α :=
  { s with entries :=
      s.entries.map (fun kv =>
        (kv.1, if kv.1 = k1
               then kv.2.map (fun kv2 => (kv2.1, if kv2.1 = k2 then f kv2.2 else kv2.2))
               else kv.2)) }

/-- In-place mutation of every entity of one inner collection. -/
def Store2.sModifyAll {α : Type} (s : Store2 α) (k1 : Snowflake) (f : α → α) : Store2 α :=
  { s with entries :=
      s.entries.map (fun kv =>
        (kv.1, if kv.1 = k1 then kv.2.map (fun kv2 => (kv2.1, f kv2.2)) else kv.2)) }

/-! ## Member role logic (from the guild-member structure source) -/

/-- The value the member source stores for the default-role entry:
`(guild) ? guild.defaultRole : null`. -/
def defaultRoleOf (guilds : Store Guild) (guildId : Snowflake) : Option Role :=
  match guilds.sGet guildId with
  | some g => g.defaultRole
  | none => none

/-- The `Member.roles` accessor: returns the private `_roles` collection when
it exists, otherwise synthesizes a fresh collection holding only the
default-role entry `guildId -> (guild ? guild.defaultRole : null)`. -/
def Member.rolesGet (guilds : Store Guild) (m : Member) :
    List (Snowflake × Option Role) :=
  match m.rolesRaw with
  | some c => c
  | none => [(m.guildId, defaultRoleOf guilds m.guildId)]

/-- The `DiscordKeys.ROLES` case of `Member.mergeValue`: a non-empty role-id
list allocates/clears `_roles`, re-inserts the default-role entry and then
each listed role id resolved against the guild's role table
(`guild.roles.get(roleId) || null`); an empty list clears `_roles` back to
`undefined`. -/
def Member.mergeRoles (guilds : Store Guild) (m : Member) (value : List Snowflake) :
    Member :=
  match value with
  | [] => { m with rolesRaw := none }
  | _ =>
    let guildOpt := guilds.sGet m.guildId
    let r0 : List (Snowflake × Option Role) :=
      listSet [] m.guildId (match guildOpt with
                            | some g => g.defaultRole
                            | none => none)
    let r1 := value.foldl (fun acc roleId =>
      listSet acc roleId (match guildOpt with
                          | some g => lookupKey g.roles roleId
                          | none => none)) r0
    { m with rolesRaw := some r1 }

/-- `member.roles.delete(roleId)` as run by the role-delete handler: when
`_roles` exists the role id is removed from it; when it does not, the delete
acts on the synthesized temporary collection and the member is unchanged. -/
def Member.rolesDelete (m : Member) (roleId : Snowflake) : Member :=
  match m.rolesRaw with
  | some c => { m with rolesRaw := some (eraseKey c roleId) }
  | none => m

/-! ## Message store

Modelled from the spec: messages are cached under a mode-dependent outer key
(per-channel, per-guild or per-user); the handlers compute a `cacheKey` that
is `null` in per-user mode, in which case the lookup searches every inner
collection (spec sections 3 and 4.1). -/

inductive MessageCacheTypes where
  | channel
  | guild
  | user
deriving DecidableEq

/-- Modelled from the spec: the message store, a composite store whose outer
key depends on the configured caching mode. -/
structure MessagesStore where
  type : MessageCacheTypes := MessageCacheTypes.channel
  enabled : Bool := true
  entries : List (Snowflake × List (Snowflake × Message)) := []
deriving DecidableEq

def MessagesStore.mGet (s : MessagesStore) (k : Option Snowflake)
    (mid : Snowflake) : Option Message :=
  if s.enabled then
    match k with
    | some key => (lookupKey s.entries key).bind (fun inner => lookupKey inner mid)
    | none => s.entries.foldl (fun acc kv => acc <|> lookupKey kv.2 mid) none
  else none

def MessagesStore.mHas (s : MessagesStore) (k : Option Snowflake) (mid : Snowflake) :
    Bool :=
  (s.mGet k mid).isSome

/-- One-argument `messages.delete(outerKey)`: evicts the whole inner cache. -/
def MessagesStore.mDelete1 (s : MessagesStore) (k : Snowflake) : MessagesStore :=
  { s with entries := eraseKey s.entries k }

/-- Two-argument `messages.delete(outerKey, messageId)`. -/
def MessagesStore.mDelete2 (s : MessagesStore) (k : Snowflake) (mid : Snowflake) :
    MessagesStore :=
  { s with entries :=
      s.entries.map (fun kv => (kv.1, if kv.1 = k then eraseKey kv.2 mid else kv.2)) }

/-- In-place mutation of the message found under (`cacheKey`, `messageId`);
with a `null` cache key every inner collection is searched, and since a
message id occurs under a single outer key, mutating each position keyed by
`messageId` is the in-place mutation of that one object. -/
def MessagesStore.mUpdate (s : MessagesStore) (k : Option Snowflake) (mid : Snowflake)
    (f : Message → Message) : MessagesStore :=
  { s with entries :=
      s.entries.map (fun kv =>
        (kv.1, if k = none ∨ k = some kv.1
               then kv.2.map (fun kv2 => (kv2.1, if kv2.1 = mid then f kv2.2 else kv2.2))
               else kv.2)) }

/-- The `cacheKey` switch the reaction handlers run on the message-cache
type: per-channel -> channel id, per-guild -> `guildId || channelId`,
per-user -> `null`. -/
def messageCacheKey (ty : MessageCacheTypes) (guildId : Option Snowflake)
    (channelId : Snowflake) : Option Snowflake :=
  match ty with
  | MessageCacheTypes.channel => some channelId
  | MessageCacheTypes.guild => some (guildId.getD channelId)
  | MessageCacheTypes.user => none

/-! ## Client cache and member-chunk coordinator state -/

/-- Modelled from the spec: a typing indicator entry (only its presence
matters to the handlers embedded here). -/
structure Typing where
  userId : Snowflake
  started : Bool := true
deriving DecidableEq

/-- The per-process client cache: the entity stores of the client context
(spec section 3; the handlers reach them as `this.client.<store>`). -/
structure ClientCache where
  guilds : Store Guild := {}
  channels : Store Channel := {}
  users : Store User := {}
  relationships : Store User := {}
  members : Store2 Member := {}
  voiceStates : Store2 VoiceState := {}
  presences : Store PresenceEntry := {}
  typings : Store2 Typing := {}
  messages : MessagesStore := {}
deriving DecidableEq

/-- Insertion-ordered set used by the member-chunk coordinator
(`BaseSet.add`). -/
def setAdd (l : List Snowflake) (x : Snowflake) : List Snowflake :=
  if x ∈ l then l else l ++ [x]

/-- The member-chunk coordinator's three guild-id sets, its debounce timer
(only whether it is armed matters here) and the batched member-list requests
it has issued. -/
structure MemberChunks where
  left : List Snowflake := []
  sending : List Snowflake := []
  done : List Snowflake := []
  timerArmed : Bool := false
deriving DecidableEq

/-- Handler-level state: the client cache, the coordinator state, the
`shouldLoadAllMembers` configuration flag and the member-list requests sent
to the gateway (`requestGuildMembers` calls, newest last). -/
structure HandlerState where
  shouldLoadAllMembers : Bool := false
  memberChunks : MemberChunks := {}
  cache : ClientCache := {}
  requests : List (List Snowflake) := []
deriving DecidableEq

/-- The debounce timer firing: flushes the whole `sending` set as one batched
`requestGuildMembers` call (skipped when the set is empty) and clears it. -/
def fireChunkTimer (st : HandlerState) : HandlerState :=
  if st.memberChunks.timerArmed then
    if st.memberChunks.sending ≠ [] then
      { st with
        memberChunks := { st.memberChunks with sending := [], timerArmed := false },
        requests := st.requests ++ [st.memberChunks.sending] }
    else
      { st with memberChunks := { st.memberChunks with sending := [], timerArmed := false } }
  else st

/-! ## Dispatch handlers (from `src/gateway/handler.ts`) -/

/-- The `GUILD_DELETE` payload: `{id, unavailable?}`. -/
structure GuildDeleteData where
  id : Snowflake
  unavailable : Option Bool := none
deriving DecidableEq

/-- Modelled from the spec: `guild.merge` on a delete payload assigns the
allow-listed `unavailable` key when present (spec section 4.1 merge
contract). -/
def guildMergeDelete (g : Guild) (d : GuildDeleteData) : Guild :=
  match d.unavailable with
  | some u => { g with unavailable := u }
  | none => g

/-- Modelled from the spec: `new Guild(client, data)` on a delete payload. -/
def newGuildFromDelete (d : GuildDeleteData) : Guild :=
  { id := d.id, unavailable := d.unavailable.getD false }

/-- `typings.get(channelId)` sweep inside the guild-delete channel loop: each
typing indicator is stopped and removed and the inner collection cleared (the
outer key itself is left behind by the source). -/
def typingsClearChannel (t : Store2 Typing) (channelId : Snowflake) : Store2 Typing :=
  { t with entries :=
      t.entries.map (fun kv => (kv.1, if kv.1 = channelId then [] else kv.2)) }

/-- `presences.clearGuildId(guildId)`, modelled from the spec: the guild id is
detached from every presence and a presence with zero attached guild ids is
evicted (spec section 3). -/
def presencesClearGuildId (p : Store PresenceEntry) (guildId : Snowflake) :
    Store PresenceEntry :=
  let detach : (Snowflake × PresenceEntry) → (Snowflake × PresenceEntry) := fun kv =>
    (kv.1, { kv.2 with guildIds := kv.2.guildIds.filter (fun g => g ≠ guildId) })
  { p with entries := (p.entries.map detach).filter (fun kv => kv.2.guildIds ≠ []) }

/-- One iteration of the guild-delete channel loop: the guild channel's
permission overwrites are cleared and the channel, its message cache and its
typing indicators are evicted. -/
def sweepChannelStep (acc : ClientCache) (kv : Snowflake × Channel) : ClientCache :=
  { acc with
    channels := (acc.channels.sModify kv.1
        (fun ch => { ch with permissionOverwrites := [] })).sDelete kv.1,
    messages := acc.messages.mDelete1 kv.1,
    typings := typingsClearChannel acc.typings kv.1 }

/-- One iteration of the per-user message sweep: the message is deleted from
its author's message cache. -/
def sweepUserMessageStep (acc : ClientCache) (kv2 : Snowflake × Message) : ClientCache :=
  { acc with messages := acc.messages.mDelete2 kv2.2.authorId kv2.1 }

/-- The guild-keyed evictions of the sweep: the guild's members, its
guild-keyed message cache, its presences attachments and its voice states. -/
def sweepKeyedEvict (c1 : ClientCache) (guildId : Snowflake) : ClientCache :=
  { c1 with
    members := c1.members.sDelete1 guildId,
    messages := c1.messages.mDelete1 guildId,
    presences := presencesClearGuildId c1.presences guildId,
    voiceStates := c1.voiceStates.sDelete1 guildId }

/-- The channel loop followed by the guild-keyed evictions (handler lines
626..646). -/
def sweepGuildCore (c : ClientCache) (guildId : Snowflake) : ClientCache :=
  sweepKeyedEvict
    ((c.channels.toList.filter (fun kv => kv.2.guildId = some guildId)).foldl
      sweepChannelStep c) guildId

/-- The messages of the given guild, as iterated by the per-user sweep
(handler lines 648..654). -/
def guildMessagesOf (c : ClientCache) (guildId : Snowflake) :
    List (Snowflake × Message) :=
  c.messages.entries.foldl
    (fun acc kv => acc ++ kv.2.filter (fun kv2 => kv2.2.guildId = some guildId)) []

/-- The cascading sweep of `GUILD_DELETE` (handler lines 626..654): the
channel loop (overwrites cleared, channel/messages/typings evicted per guild
channel), then the guild-keyed member / message / voice-state eviction and
presence detach, then the per-user message sweep when the cache mode is
per-user. -/
def sweepGuild (c : ClientCache) (guildId : Snowflake) : ClientCache :=
  if (sweepGuildCore c guildId).messages.type = MessageCacheTypes.user then
    (guildMessagesOf (sweepGuildCore c guildId) guildId).foldl sweepUserMessageStep
      (sweepGuildCore c guildId)
  else sweepGuildCore c guildId

/-- The `GUILD_DELETE` dispatch handler (handler lines 606..663): drops the
guild id from the coordinator's `done` and `sending` sets, merges or inserts
the guild, runs the cascading sweep when the guild was already cached (or the
guild store is disabled), and finally deletes the guild itself unless the
event only marks it unavailable. -/
def handleGuildDelete (st : HandlerState) (d : GuildDeleteData) : HandlerState :=
  let guildId := d.id
  let isUnavailable := d.unavailable.getD false
  let mc := { st.memberChunks with
    done := st.memberChunks.done.filter (fun g => g ≠ guildId),
    sending := st.memberChunks.sending.filter (fun g => g ≠ guildId) }
  let c := st.cache
  let isNew := ¬ c.guilds.sHas guildId
  let c1 :=
    if c.guilds.sHas guildId then
      { c with guilds := c.guilds.sModify guildId (fun g => guildMergeDelete g d) }
    else
      { c with guilds := c.guilds.sInsert guildId (newGuildFromDelete d) }
  let c2 := if ¬ isNew ∨ ¬ c1.guilds.enabled then sweepGuild c1 guildId else c1
  let c3 := if ¬ isUnavailable then { c2 with guilds := c2.guilds.sDelete guildId } else c2
  { st with memberChunks := mc, cache := c3 }

/-- The `GUILD_CREATE` payload (the fields this embedding needs). -/
structure GuildCreateData where
  id : Snowflake
  unavailable : Bool := false
  memberCount : Int := 0
deriving DecidableEq

/-- Modelled from the spec: `guild.merge` on a create payload assigns the
allow-listed keys (spec section 4.1 merge contract). -/
def guildMergeCreate (g : Guild) (d : GuildCreateData) : Guild :=
  { g with unavailable := d.unavailable, memberCount := d.memberCount }

/-- The `GUILD_CREATE` dispatch handler (handler lines 562..604): guild
upsert, then the member-chunk coordinator step — a guild not yet `done` is
put into `left`; a guild in `left` whose cached member count disagrees with
its `memberCount` is moved into `sending` and the debounce timer is
(re)armed; the guild is then marked `done` and taken out of `left`. -/
def handleGuildCreate (st : HandlerState) (d : GuildCreateData) : HandlerState :=
  let c := st.cache
  let c1 :=
    if c.guilds.sHas d.id then
      { c with guilds := c.guilds.sModify d.id (fun g => guildMergeCreate g d) }
    else
      let g0 : Guild :=
        { id := d.id, unavailable := d.unavailable, memberCount := d.memberCount }
      { c with guilds := c.guilds.sInsert d.id g0 }
  if st.shouldLoadAllMembers then
    let mc := st.memberChunks
    let mc1 := if d.id ∉ mc.done then { mc with left := setAdd mc.left d.id } else mc
    let mc2 :=
      if d.id ∈ mc1.left then
        let membersLen : Int := ((c1.members.sGet1 d.id).getD []).length
        let mcS :=
          if membersLen ≠ d.memberCount then
            { mc1 with sending := setAdd mc1.sending d.id, timerArmed := true }
          else mc1
        { mcS with done := setAdd mcS.done d.id,
                   left := mcS.left.filter (fun g => g ≠ d.id) }
      else mc1
    { st with cache := c1, memberChunks := mc2 }
  else { st with cache := c1 }

/-- The guild summary carried by the READY payload (the fields the
member-chunk coordinator step reads). -/
structure ReadyGuildData where
  id : Snowflake
  unavailable : Bool := false
  memberCount : Int := 0
deriving DecidableEq

/-- Modelled from the spec: `client.reset()` at the top of READY — "a full
local cache reset (all stores cleared) before repopulating" (spec
section 4.2).  The member-chunk coordinator's sets live on the gateway
handler, not on the client's stores, and survive the reset. -/
def cacheReset (c : ClientCache) : ClientCache :=
  { guilds := { c.guilds with entries := [] },
    channels := { c.channels with entries := [] },
    users := { c.users with entries := [] },
    relationships := { c.relationships with entries := [] },
    members := { c.members with entries := [] },
    voiceStates := { c.voiceStates with entries := [] },
    presences := { c.presences with entries := [] },
    typings := { c.typings with entries := [] },
    messages := { c.messages with entries := [] } }

/-- One iteration of the READY guild loop (handler lines 171..189): guild
upsert, then the coordinator step — an unavailable guild is added to `left`
without consulting `done`; an available guild with an incomplete member
cache is marked `done` and collected for the immediate chunk request.  The
accumulator pairs the handler state with `requestChunksNow`. -/
def readyGuildStep (acc : HandlerState × List Snowflake) (raw : ReadyGuildData) :
    HandlerState × List Snowflake :=
  let st := acc.1
  let c := st.cache
  let mergeReady : Guild → Guild := fun g =>
    { g with unavailable := raw.unavailable, memberCount := raw.memberCount }
  let c1 :=
    if c.guilds.sHas raw.id then
      { c with guilds := c.guilds.sModify raw.id mergeReady }
    else
      let g0 : Guild :=
        { id := raw.id, unavailable := raw.unavailable, memberCount := raw.memberCount }
      { c with guilds := c.guilds.sInsert raw.id g0 }
  if st.shouldLoadAllMembers then
    if raw.unavailable then
      let mc := { st.memberChunks with left := setAdd st.memberChunks.left raw.id }
      ({ st with cache := c1, memberChunks := mc }, acc.2)
    else
      let membersLen : Int := ((c1.members.sGet1 raw.id).getD []).length
      if membersLen ≠ raw.memberCount then
        let mc := { st.memberChunks with done := setAdd st.memberChunks.done raw.id }
        ({ st with cache := c1, memberChunks := mc }, acc.2 ++ [raw.id])
      else ({ st with cache := c1 }, acc.2)
  else ({ st with cache := c1 }, acc.2)

/-- The READY dispatch handler, restricted to the parts that feed the
member-chunk coordinator (handler lines 147..199): the full cache reset,
the guild loop, and the immediate batched member-list request for the
collected available-but-incomplete guilds.  The sections that do not touch
the coordinator (self user, notes, presences, private channels,
relationships, sessions) are elided. -/
def handleReady (st : HandlerState) (guilds : List ReadyGuildData) : HandlerState :=
  let st0 := { st with cache := cacheReset st.cache }
  if st0.cache.guilds.enabled then
    let r := guilds.foldl readyGuildStep (st0, [])
    if r.2 ≠ [] then { r.1 with requests := r.1.requests ++ [r.2] } else r.1
  else st0

/-- The `GUILD_MEMBER_ADD` payload (the fields this embedding needs): the
guild id and the nested raw user. -/
structure GuildMemberAddData where
  guildId : Snowflake
  userId : Snowflake
  username : String := ""
  bot : Bool := false
  nick : Option String := none
deriving DecidableEq

/-- The user upsert run by `Member.mergeValue` on the `user` key (both in the
`new Member(...)` constructor and in `member.merge(data)`): look up or create
the shared `User` and merge the raw payload into it. -/
def userUpsertFromMemberAdd (users : Store User) (d : GuildMemberAddData) : Store User :=
  if users.sHas d.userId then
    users.sModify d.userId (fun u => { u with username := d.username, bot := d.bot })
  else
    users.sInsert d.userId { id := d.userId, username := d.username, bot := d.bot }

/-- `member.merge(data)` for a member-add payload (spec section 4.1 merge
contract; the `_roles` collection is untouched because the embedding elides
the payload's role-id list, which is orthogonal to this handler's claim). -/
def memberMergeAdd (m : Member) (d : GuildMemberAddData) : Member :=
  { m with guildId := d.guildId, userId := d.userId, nick := d.nick }

/-- The `GUILD_MEMBER_ADD` dispatch handler (handler lines 707..726): member
upsert into the composite member store (the nested user is upserted into the
shared user store either way), then `guild.memberCount++` when the guild is
cached. -/
def handleGuildMemberAdd (c : ClientCache) (d : GuildMemberAddData) : ClientCache :=
  let users' := userUpsertFromMemberAdd c.users d
  let members' :=
    if c.members.sHas2 d.guildId d.userId then
      c.members.sModify2 d.guildId d.userId (fun m => memberMergeAdd m d)
    else
      c.members.sInsert2 d.guildId d.userId (memberMergeAdd {} d)
  let guilds' :=
    if c.guilds.sHas d.guildId then
      c.guilds.sModify d.guildId (fun g => { g with memberCount := g.memberCount + 1 })
    else c.guilds
  { c with users := users', members := members', guilds := guilds' }

/-- The `GUILD_ROLE_DELETE` payload: `{guild_id, role_id}`. -/
structure GuildRoleDeleteData where
  guildId : Snowflake
  roleId : Snowflake
deriving DecidableEq

/-- The `GUILD_ROLE_DELETE` dispatch handler (handler lines 931..958): the
role is removed from the cached guild's role collection when present, then
every cached member of that guild has `member.roles.delete(roleId)` run on
it. -/
def handleGuildRoleDelete (c : ClientCache) (d : GuildRoleDeleteData) : ClientCache :=
  let dropRole : Guild → Guild := fun g =>
    if (lookupKey g.roles d.roleId).isSome
    then { g with roles := eraseKey g.roles d.roleId }
    else g
  let c1 :=
    if c.guilds.sHas d.guildId then
      { c with guilds := c.guilds.sModify d.guildId dropRole }
    else c
  match c1.members.sGet1 d.guildId with
  | some _ =>
    let ms := c1.members.sModifyAll d.guildId (fun m => m.rolesDelete d.roleId)
    { c1 with members := ms }
  | none => c1

/-- The `VOICE_STATE_UPDATE` payload (the fields this embedding needs). -/
structure VoiceStateUpdateData where
  guildId : Option Snowflake := none
  channelId : Option Snowflake := none
  userId : Snowflake
  sessionId : String := ""
deriving DecidableEq

/-- `const serverId = data['guild_id'] || data['channel_id']` (the dispatch
protocol guarantees at least one is set). -/
def voiceServerId (d : VoiceStateUpdateData) : Snowflake :=
  match d.guildId with
  | some g => g
  | none => d.channelId.getD ""

/-- `voiceState.merge(data)` (spec section 4.1 merge contract: present keys,
`channel_id` included even when null, are assigned). -/
def voiceStateMerge (vs : VoiceState) (d : VoiceStateUpdateData) : VoiceState :=
  { vs with channelId := d.channelId, sessionId := d.sessionId }

/-- `new VoiceState(client, data)`. -/
def newVoiceState (d : VoiceStateUpdateData) : VoiceState :=
  { serverId := voiceServerId d, userId := d.userId,
    channelId := d.channelId, sessionId := d.sessionId }

/-- The `VOICE_STATE_UPDATE` dispatch handler (handler lines 1635..1660): a
cached voice state is merged, then deleted from the store when the payload's
channel id is null; an uncached one is constructed and inserted. -/
def handleVoiceStateUpdate (c : ClientCache) (d : VoiceStateUpdateData) : ClientCache :=
  let serverId := voiceServerId d
  if c.voiceStates.sHas2 serverId d.userId then
    let c1 := { c with voiceStates :=
      c.voiceStates.sModify2 serverId d.userId (fun vs => voiceStateMerge vs d) }
    if d.channelId = none then
      { c1 with voiceStates := c1.voiceStates.sDelete2 serverId d.userId }
    else c1
  else
    { c with voiceStates := c.voiceStates.sInsert2 serverId d.userId (newVoiceState d) }

/-! ## Reaction handlers (handler lines 1178..1367) -/

/-- The common payload of the reaction events: `const emojiId =
data.emoji.id || data.emoji.name` is precomputed into `emojiId`. -/
structure ReactionEventData where
  channelId : Snowflake
  messageId : Snowflake
  guildId : Option Snowflake := none
  userId : Snowflake := ""
  emojiId : Snowflake := ""
deriving DecidableEq

/-- `new Reaction(this.client, data)`: a transient reaction starting at the
defaults (count 0, me false) before the handler's merge. -/
def newReactionFrom (d : ReactionEventData) : Reaction :=
  { emojiId := d.emojiId }

/-- The mutation `MESSAGE_REACTION_ADD` applies to a cached message
(handler lines 1205..1226): the reaction is looked up in `_reactions` (or
created, lazily allocating the collection) and then merged with
`{count: count + 1, me: (userId === meUserId) || me}`. -/
def reactionAddOnMessage (meUserId : Option Snowflake) (d : ReactionEventData)
    (msg : Message) : Message :=
  let bump : Reaction → Reaction := fun r =>
    { r with count := r.count + 1, me := (some d.userId = meUserId) || r.me }
  match msg.reactionsRaw with
  | some rs =>
    match lookupKey rs d.emojiId with
    | some r => { msg with reactionsRaw := some (listSet rs d.emojiId (bump r)) }
    | none =>
      { msg with reactionsRaw := some (listSet rs d.emojiId (bump (newReactionFrom d))) }
  | none =>
    { msg with reactionsRaw := some (listSet [] d.emojiId (bump (newReactionFrom d))) }

/-- The mutation `MESSAGE_REACTION_REMOVE` applies to a cached message
(handler lines 1280..1295): the cached reaction is merged with
`{count: Math.min(count - 1, 0), me: me && userId !== meUserId}`; a reaction
whose count dropped to `<= 0` is deleted, and an emptied collection is torn
down to `undefined`. -/
def reactionRemoveMerge (meUserId : Option Snowflake) (d : ReactionEventData)
    (r : Reaction) : Reaction :=
  { r with count := min (r.count - 1) 0, me := r.me && (some d.userId ≠ meUserId) }

/-- The reaction collection after the remove handler deleted the merged
reaction whose count dropped to zero or below. -/
def reactionRemoveList (meUserId : Option Snowflake) (d : ReactionEventData)
    (rs : List (Snowflake × Reaction)) (r : Reaction) : List (Snowflake × Reaction) :=
  eraseKey (listSet rs d.emojiId (reactionRemoveMerge meUserId d r)) d.emojiId

def reactionRemoveOnMessage (meUserId : Option Snowflake) (d : ReactionEventData)
    (msg : Message) : Message :=
  match msg.reactionsRaw with
  | some rs =>
    match lookupKey rs d.emojiId with
    | some r =>
      if (reactionRemoveMerge meUserId d r).count ≤ 0 then
        if (reactionRemoveList meUserId d rs r).length = 0 then
          { msg with reactionsRaw := none }
        else
          { msg with reactionsRaw := some (reactionRemoveList meUserId d rs r) }
      else
        { msg with reactionsRaw := some (listSet rs d.emojiId (reactionRemoveMerge meUserId d r)) }
    | none => msg
  | none => msg

/-- The mutation `MESSAGE_REACTION_REMOVE_ALL` applies to a cached message
(handler lines 1343..1349): when the collection exists (a JS object is always
truthy) it is cleared and set back to `undefined`. -/
def reactionRemoveAllOnMessage (msg : Message) : Message :=
  match msg.reactionsRaw with
  | some _ => { msg with reactionsRaw := none }
  | none => msg

/-- A reaction event handler: looks the message up under the mode-dependent
cache key and, when cached, applies its per-message mutation in place;
an uncached message leaves every cached message untouched. -/
def runReactionHandler (s : MessagesStore) (d : ReactionEventData)
    (f : Message → Message) : MessagesStore :=
  match s.mGet (messageCacheKey s.type d.guildId d.channelId) d.messageId with
  | some _ => s.mUpdate (messageCacheKey s.type d.guildId d.channelId) d.messageId f
  | none => s

def handleReactionAdd (meUserId : Option Snowflake) (s : MessagesStore)
    (d : ReactionEventData) : MessagesStore :=
  runReactionHandler s d (reactionAddOnMessage meUserId d)

def handleReactionRemove (meUserId : Option Snowflake) (s : MessagesStore)
    (d : ReactionEventData) : MessagesStore :=
  runReactionHandler s d (reactionRemoveOnMessage meUserId d)

def handleReactionRemoveAll (s : MessagesStore) (d : ReactionEventData) :
    MessagesStore :=
  runReactionHandler s d reactionRemoveAllOnMessage

/-! ## Cluster process RPC layer
(from `src/cluster/process.ts` and `src/cluster/processchild.ts`) -/

/-- A JavaScript value as carried by the evaluate protocol (only the shapes
the claims need: `null` is its own constructor because the protocol
distinguishes a `null` result from an ignored request). -/
inductive JsValue where
  | null
  | bool (b : Bool)
  | num (n : Int)
  | str (s : String)
deriving DecidableEq

/-- The serialized error shape `{message, name, stack}` put on the wire by
both sides (`processchild.ts` lines 67..74, `process.ts` lines 97..104). -/
structure IpcErrorData where
  message : String
  name : String := "Error"
  stack : String := ""
deriving DecidableEq

/-- The evaluate payload `{code, nonce, result?, error?, ignored?}`
(spec section 6; `src/cluster/ipctypes.ts` is not among the delivered
sources, so the field list is modelled from the spec). -/
structure EvalData where
  code : String := ""
  nonce : String
  result : Option JsValue := none
  error : Option IpcErrorData := none
  ignored : Bool := false
deriving DecidableEq

/-- IPC opcodes (spec section 6: READY, CLOSE, RECONNECTING, RESPAWN_ALL,
EVAL). -/
inductive ClusterIPCOpCodes where
  | ready
  | close
  | reconnecting
  | respawnAll
  | eval
deriving DecidableEq

/-- The IPC envelope `{op, data, request, shard?}` (`sendIPC` in both cluster
sources). -/
structure IPCMessage where
  op : ClusterIPCOpCodes
  data : EvalData
  request : Bool := false
  shard : Option Int := none
deriving DecidableEq

/-- The worker-side message handler `ClusterProcessChild.onMessage`
(processchild lines 44..84), restricted to the EVAL opcode: a request whose
target shard is set but not owned is answered with `{...data, ignored: true}`
without evaluating; otherwise the code is evaluated (`evalFn` standing for
`this.cluster._eval`) and the result or the caught error is sent back.
Returns the reply message passed to `sendIPC`, if any. -/
def childOnMessage (ownedShards : List Int)
    (evalFn : String → Except IpcErrorData JsValue) (msg : IPCMessage) :
    Option IPCMessage :=
  match msg.op with
  | ClusterIPCOpCodes.eval =>
    if msg.request then
      match msg.shard with
      | some s =>
        if ¬ s ∈ ownedShards then
          some { op := ClusterIPCOpCodes.eval, data := { msg.data with ignored := true } }
        else
          match evalFn msg.data.code with
          | Except.ok v =>
            some { op := ClusterIPCOpCodes.eval, data := { msg.data with result := some v } }
          | Except.error e =>
            some { op := ClusterIPCOpCodes.eval, data := { msg.data with error := some e } }
      | none =>
        match evalFn msg.data.code with
        | Except.ok v =>
          some { op := ClusterIPCOpCodes.eval, data := { msg.data with result := some v } }
        | Except.error e =>
          some { op := ClusterIPCOpCodes.eval, data := { msg.data with error := some e } }
    else none
  | _ => none

/-- What an evaluate promise is resolved with on the initiating side. -/
inductive EvalResolution where
  /-- `res(null)` — the receiving worker ignored the request. -/
  | nullRes
  /-- `res([x, isError])` — the pair resolved for an executed evaluate, or
  the synthetic process-closed error pair. -/
  | pair (x : Sum JsValue IpcErrorData) (isError : Bool)
deriving DecidableEq

/-- The resolution the parent-side eval listener performs on a matching-nonce
response (`ClusterProcess.eval` lines 161..169): `ignored` resolves to
`null`; otherwise an error datum resolves to `[error, true]` and a result to
`[result, false]`. -/
def resolutionOfData (d : EvalData) : EvalResolution :=
  if d.ignored then EvalResolution.nullRes
  else
    match d.error with
    | some e => EvalResolution.pair (Sum.inr e) true
    | none => EvalResolution.pair (Sum.inl (d.result.getD JsValue.null)) false

/-- The synthetic process-closed error message
(`ClusterProcess.onExit` line 122); `\x27` is the apostrophe. -/
def exitMessage (code : Int) (signal : String) : String :=
  "Process has closed with \x27" ++ toString code ++ "\x27 code and \x27" ++
    signal ++ "\x27 signal."

/-- One pending entry of `_evalsWaiting`: the inner promise stored in the
table (returned to de-duplicated callers) and the outer promise whose
`resolve` is stored (the one the first caller holds). -/
structure EvalEntry where
  promiseId : Nat
  resolveId : Nat
deriving DecidableEq

/-- The parent-side state of one `ClusterProcess`: the pending-nonce table,
the resolution state of every promise created by `eval` (a promise id is
bound at most once — first resolution wins), the `promise.then(resolve)`
wirings from inner to outer promises, the nonces whose requests were sent,
and whether the child process is alive. -/
structure ProcState where
  evalsWaiting : List (String × EvalEntry) := []
  resolutions : List (Nat × EvalResolution) := []
  wires : List (Nat × Nat) := []
  sent : List String := []
  nextId : Nat := 0
  processAlive : Bool := true
deriving DecidableEq

/-- Run the `then`-wirings out of promise `p` (the fold the resolution step
performs over the wire list): each wired target is resolved with the same
value if still unresolved. -/
def wirePropagate : List (Nat × Nat) → Nat → EvalResolution →
    List (Nat × EvalResolution) → List (Nat × EvalResolution)
  | [], _, _, rs => rs
  | wr :: t, p, v, rs =>
    wirePropagate t p v
      (if wr.1 = p ∧ (lookupKey rs wr.2).isNone then (wr.2, v) :: rs else rs)

/-- Resolve promise `p` with `v` (a no-op when already resolved), then run
the `then`-wirings out of `p`. -/
def resolveProm (st : ProcState) (p : Nat) (v : EvalResolution) : ProcState :=
  if (lookupKey st.resolutions p).isSome then st
  else { st with resolutions := wirePropagate st.wires p v ((p, v) :: st.resolutions) }

/-- `ClusterProcess.eval` (process lines 135..191): with no child the call
throws; a nonce already pending returns the stored entry's (inner) promise
without sending anything; otherwise an outer promise is created, an inner
promise is created whose executor attaches the response listener and sends
the request, the entry `{promise: inner, resolve: outerResolve}` is put into
the table, and `promise.then(resolve)` wires the inner promise to the outer
one.  Returns the promise handed to the caller and the new state. -/
def evalCall (st : ProcState) (nonce : String) : Option (Nat × ProcState) :=
  if ¬ st.processAlive then none
  else
    match lookupKey st.evalsWaiting nonce with
    | some entry => some (entry.promiseId, st)
    | none =>
      let pOut := st.nextId
      let pIn := st.nextId + 1
      some (pOut,
        { st with
          evalsWaiting := (nonce, ⟨pIn, pOut⟩) :: st.evalsWaiting,
          wires := (pIn, pOut) :: st.wires,
          sent := st.sent ++ [nonce],
          nextId := st.nextId + 2 })

/-- The response listener firing for an EVAL envelope with a matching nonce
(process lines 150..174): the entry is removed from the table and the inner
promise is resolved from the response data (which the `then`-wiring
propagates to the outer promise). -/
def onEvalResponse (st : ProcState) (nonce : String) (d : EvalData) : ProcState :=
  match lookupKey st.evalsWaiting nonce with
  | some entry =>
    let st1 := { st with evalsWaiting := eraseKey st.evalsWaiting nonce }
    resolveProm st1 entry.promiseId (resolutionOfData d)
  | none => st

/-- `ClusterProcess.onExit` (process lines 116..133): every pending entry's
stored `resolve` (the outer promise of the caller that registered the nonce)
is called with `[new Error(exitMessage), true]` and the entry is removed; the
source loop deletes each visited nonce, so the table ends empty. -/
def onExit (st : ProcState) (code : Int) (signal : String) : ProcState :=
  let v := EvalResolution.pair
    (Sum.inr { message := exitMessage code signal }) true
  let st1 := st.evalsWaiting.foldl (fun acc e => resolveProm acc e.2.resolveId v) st
  { st1 with evalsWaiting := [], processAlive := false }

/-! ## Resolution lemmas

A promise, once resolved, keeps its value (`resolveProm` guards every
insertion), and every binding a `resolveProm` call adds carries the value of
that call. -/

theorem wirePropagate_lookup_mono (wires : List (Nat × Nat))
    (rs : List (Nat × EvalResolution)) (p : Nat) (v : EvalResolution) (q : Nat)
    (w : EvalResolution) (h : lookupKey rs q = some w) :
    lookupKey (wirePropagate wires p v rs) q = some w := by
  induction wires generalizing rs with
  | nil => exact h
  | cons wr t ih =>
    by_cases hc : wr.1 = p ∧ (lookupKey rs wr.2).isNone
    · have hne : wr.2 ≠ q := by
        intro he
        rw [he, h] at hc
        simp at hc
      simp only [wirePropagate, if_pos hc]
      exact ih _ (by simp [lookupKey, hne, h])
    · simp only [wirePropagate, if_neg hc]
      exact ih _ h

theorem wirePropagate_lookup_cases (wires : List (Nat × Nat))
    (rs : List (Nat × EvalResolution)) (p : Nat) (v : EvalResolution) (q : Nat) :
    lookupKey (wirePropagate wires p v rs) q = lookupKey rs q ∨
    lookupKey (wirePropagate wires p v rs) q = some v := by
  induction wires generalizing rs with
  | nil => exact Or.inl rfl
  | cons wr t ih =>
    by_cases hc : wr.1 = p ∧ (lookupKey rs wr.2).isNone
    · simp only [wirePropagate, if_pos hc]
      by_cases hq : wr.2 = q
      · rcases ih ((wr.2, v) :: rs) with h | h
        · rw [h]
          right
          simp [lookupKey, hq]
        · exact Or.inr h
      · rcases ih ((wr.2, v) :: rs) with h | h
        · rw [h]
          left
          simp [lookupKey, hq]
        · exact Or.inr h
    · simp only [wirePropagate, if_neg hc]
      exact ih rs

theorem wirePropagate_no_src (wires : List (Nat × Nat))
    (rs : List (Nat × EvalResolution)) (p : Nat) (v : EvalResolution)
    (h : ∀ w ∈ wires, w.1 ≠ p) :
    wirePropagate wires p v rs = rs := by
  induction wires generalizing rs with
  | nil => rfl
  | cons wr t ih =>
    have hne : ¬ (wr.1 = p ∧ (lookupKey rs wr.2).isNone) := by
      intro hc
      exact h wr (List.mem_cons_self wr t) hc.1
    simp only [wirePropagate, if_neg hne]
    exact ih rs (fun w hw => h w (List.mem_cons_of_mem wr hw))

theorem resolveProm_lookup_mono (st : ProcState) (p : Nat) (v : EvalResolution)
    (q : Nat) (w : EvalResolution) (h : lookupKey st.resolutions q = some w) :
    lookupKey (resolveProm st p v).resolutions q = some w := by
  unfold resolveProm
  by_cases hp : (lookupKey st.resolutions p).isSome
  · simpa [hp] using h
  · have hne : p ≠ q := by
      intro he
      rw [he, h] at hp
      simp at hp
    simp only [hp, Bool.false_eq_true, if_neg, ite_false, reduceIte]
    exact wirePropagate_lookup_mono _ _ _ _ _ _ (by simp [lookupKey, hne, h])

theorem resolveProm_lookup_cases (st : ProcState) (p : Nat) (v : EvalResolution)
    (q : Nat) :
    lookupKey (resolveProm st p v).resolutions q = lookupKey st.resolutions q ∨
    lookupKey (resolveProm st p v).resolutions q = some v := by
  unfold resolveProm
  by_cases hp : (lookupKey st.resolutions p).isSome
  · simp [hp]
  · simp only [hp, Bool.false_eq_true, if_neg, ite_false, reduceIte]
    by_cases hq : p = q
    · rcases wirePropagate_lookup_cases st.wires ((p, v) :: st.resolutions) p v q with h | h
      · rw [h]
        right
        simp [lookupKey, hq]
      · exact Or.inr h
    · rcases wirePropagate_lookup_cases st.wires ((p, v) :: st.resolutions) p v q with h | h
      · rw [h]
        left
        simp [lookupKey, hq]
      · exact Or.inr h

theorem resolveProm_lookup_self (st : ProcState) (p : Nat) (v : EvalResolution)
    (h : lookupKey st.resolutions p = none) :
    lookupKey (resolveProm st p v).resolutions p = some v := by
  unfold resolveProm
  simp only [h, Option.isSome_none, Bool.false_eq_true, if_neg, ite_false, reduceIte]
  exact wirePropagate_lookup_mono _ _ _ _ _ _ (by simp [lookupKey])

theorem resolveProm_resolutions_of_unresolved (st : ProcState) (p : Nat)
    (v : EvalResolution) (h : lookupKey st.resolutions p = none) :
    (resolveProm st p v).resolutions =
      wirePropagate st.wires p v ((p, v) :: st.resolutions) := by
  unfold resolveProm
  simp [h]

theorem resolveProm_evalsWaiting (st : ProcState) (p : Nat) (v : EvalResolution) :
    (resolveProm st p v).evalsWaiting = st.evalsWaiting := by
  unfold resolveProm
  by_cases hp : (lookupKey st.resolutions p).isSome <;> simp [hp]

theorem exitFold_mono (l : List (String × EvalEntry)) (acc : ProcState)
    (v : EvalResolution) (q : Nat) (w : EvalResolution)
    (h : lookupKey acc.resolutions q = some w) :
    lookupKey ((l.foldl (fun a e => resolveProm a e.2.resolveId v) acc)).resolutions q =
      some w := by
  induction l generalizing acc with
  | nil => exact h
  | cons e t ih =>
    exact ih _ (resolveProm_lookup_mono acc e.2.resolveId v q w h)

theorem exitFold_some (l : List (String × EvalEntry)) (acc : ProcState)
    (v : EvalResolution) (q : Nat)
    (hq : q ∈ l.map (fun e => e.2.resolveId))
    (h : lookupKey acc.resolutions q = none ∨ lookupKey acc.resolutions q = some v) :
    lookupKey ((l.foldl (fun a e => resolveProm a e.2.resolveId v) acc)).resolutions q =
      some v := by
  induction l generalizing acc with
  | nil => simp at hq
  | cons e t ih =>
    simp only [List.map, List.mem_cons] at hq
    rcases hq with hq | hq
    · subst hq
      rcases h with h | h
      · exact exitFold_mono t _ v _ _ (resolveProm_lookup_self acc _ v h)
      · exact exitFold_mono t _ v _ _ (resolveProm_lookup_mono acc _ v _ _ h)
    · rcases resolveProm_lookup_cases acc e.2.resolveId v q with hc | hc
      · exact ih _ (by simpa using hq) (hc ▸ h)
      · exact ih _ (by simpa using hq) (Or.inr hc)

/-! ## Claim C4 -/

/-- The state after one `eval` call with nonce `"n"` on a fresh
`ClusterProcess`: outer promise 0 handed to the caller, inner promise 1
stored in the pending entry, `then`-wire from 1 to 0. -/
def pendingTwoCallers : ProcState :=
  { evalsWaiting := [("n", ⟨1, 0⟩)], resolutions := [], wires := [(1, 0)],
    sent := ["n"], nextId := 2, processAlive := true }

/-- Claim C4, counterexample: after a first `eval("n")` (receiving promise 0)
and a de-duplicated second `eval("n")` (receiving the entry's inner
promise 1), a worker exit empties the pending table and resolves promise 0,
but promise 1 — the second pending caller's — is resolved with nothing, so
not every pending evaluate caller receives a realized error value. -/
theorem dedup_caller_unresolved_on_exit_cex_c4 :
    evalCall ({} : ProcState) "n" = some (0, pendingTwoCallers) ∧
    evalCall pendingTwoCallers "n" = some (1, pendingTwoCallers) ∧
    lookupKey pendingTwoCallers.evalsWaiting "n" = some ⟨1, 0⟩ ∧
    (onExit pendingTwoCallers 3 "SIGKILL").evalsWaiting = [] ∧
    lookupKey (onExit pendingTwoCallers 3 "SIGKILL").resolutions 0 =
      some (EvalResolution.pair
        (Sum.inr { message := exitMessage 3 "SIGKILL" }) true) ∧
    lookupKey (onExit pendingTwoCallers 3 "SIGKILL").resolutions 1 = none := by
  decide

/-- Claim C4 (amended): when the worker process exits, the pending-nonce
table is emptied and, for every pending entry, the promise whose `resolve`
the entry stores — the one held by the caller that registered the nonce — is
resolved with a realized error pair whose message mentions the exit code and
the exit signal.  (A de-duplicated caller holding the entry's inner promise
is not resolved by exit; see the counterexample.) -/
theorem onExit_resolves_pending_entries_c4 (st : ProcState) (code : Int)
    (signal : String)
    (h : ∀ e ∈ st.evalsWaiting, lookupKey st.resolutions e.2.resolveId = none) :
    (onExit st code signal).evalsWaiting = [] ∧
    (∀ e ∈ st.evalsWaiting,
      lookupKey (onExit st code signal).resolutions e.2.resolveId =
        some (EvalResolution.pair
          (Sum.inr { message := exitMessage code signal }) true)) ∧
    (∃ a b, exitMessage code signal = a ++ toString code ++ b) ∧
    (∃ a b, exitMessage code signal = a ++ signal ++ b) := by
  refine ⟨rfl, ?_, ?_, ?_⟩
  · intro e he
    show lookupKey ((st.evalsWaiting.foldl (fun acc e' =>
      resolveProm acc e'.2.resolveId (EvalResolution.pair
        (Sum.inr { message := exitMessage code signal }) true)) st)).resolutions
      e.2.resolveId = _
    apply exitFold_some
    · exact List.mem_map_of_mem _ he
    · exact Or.inl (h e he)
  · refine ⟨"Process has closed with \x27",
      "\x27 code and \x27" ++ signal ++ "\x27 signal.", ?_⟩
    simp [exitMessage, String.append_assoc]
  · refine ⟨"Process has closed with \x27" ++ toString code ++ "\x27 code and \x27",
      "\x27 signal.", ?_⟩
    simp [exitMessage, String.append_assoc]

/-- Witness for C4 (amended) at the concrete two-caller pending state and
exit `(3, "SIGKILL")`: the registering caller's promise 0 is resolved with
the process-closed error pair. -/
theorem onExit_resolves_pending_entries_c4_witness :
    lookupKey (onExit pendingTwoCallers 3 "SIGKILL").resolutions 0 =
      some (EvalResolution.pair
        (Sum.inr { message := exitMessage 3 "SIGKILL" }) true) :=
  (onExit_resolves_pending_entries_c4 pendingTwoCallers 3 "SIGKILL"
    (by decide)).2.1 ("n", ⟨1, 0⟩) (by decide)

/-! ## Claim C5 -/

/-- An evaluate request envelope as sent to a worker. -/
def evalRequestMsg (code nonce : String) (shard : Option Int) : IPCMessage :=
  { op := ClusterIPCOpCodes.eval, data := { code := code, nonce := nonce },
    request := true, shard := shard }

/-- The `{...data, ignored: true}` reply a worker sends for a targeted
request on a shard it does not own. -/
def ignoredReplyMsg (code nonce : String) : IPCMessage :=
  { op := ClusterIPCOpCodes.eval,
    data := { code := code, nonce := nonce, ignored := true } }

/-- Claim C5: a targeted evaluate request whose shard the worker does not own
is answered with the ignored marker without running the code (the reply does
not depend on the evaluation function), and the initiating side resolves it
to `null` — distinct in kind from the `[result, false]` pair resolved for a
worker that executed the code and returned `null`. -/
theorem targeted_eval_ignored_c5 (ownedShards : List Int)
    (f g : String → Except IpcErrorData JsValue) (code nonce : String)
    (s sOwned : Int) (hs : s ∉ ownedShards) (hso : sOwned ∈ ownedShards)
    (hf : f code = Except.ok JsValue.null) :
    childOnMessage ownedShards f (evalRequestMsg code nonce (some s)) =
      some (ignoredReplyMsg code nonce) ∧
    childOnMessage ownedShards f (evalRequestMsg code nonce (some s)) =
      childOnMessage ownedShards g (evalRequestMsg code nonce (some s)) ∧
    resolutionOfData (ignoredReplyMsg code nonce).data = EvalResolution.nullRes ∧
    childOnMessage ownedShards f (evalRequestMsg code nonce (some sOwned)) =
      some { op := ClusterIPCOpCodes.eval,
             data := { code := code, nonce := nonce, result := some JsValue.null } } ∧
    resolutionOfData { code := code, nonce := nonce, result := some JsValue.null } =
      EvalResolution.pair (Sum.inl JsValue.null) false ∧
    EvalResolution.nullRes ≠ EvalResolution.pair (Sum.inl JsValue.null) false := by
  refine ⟨?_, ?_, ?_, ?_, ?_, ?_⟩
  · simp [childOnMessage, evalRequestMsg, ignoredReplyMsg, hs]
  · simp [childOnMessage, evalRequestMsg, hs]
  · simp [resolutionOfData, ignoredReplyMsg]
  · simp [childOnMessage, evalRequestMsg, hso, hf]
  · simp [resolutionOfData]
  · intro hcontra
    exact EvalResolution.noConfusion hcontra

/-- Witness for C5: worker owning shard 0 only, request targeted at shard 1
is ignored while the same code executed at shard 0 returns `null`. -/
theorem targeted_eval_ignored_c5_witness :
    childOnMessage [0] (fun _ => Except.ok JsValue.null)
        (evalRequestMsg "code" "n1" (some 1)) =
      some (ignoredReplyMsg "code" "n1") :=
  (targeted_eval_ignored_c5 [0] (fun _ => Except.ok JsValue.null)
    (fun _ => Except.ok JsValue.null) "code" "n1" 1 0
    (by decide) (by decide) rfl).1

/-! ## Claim C6 -/

theorem onEvalResponse_after_register (st : ProcState) (N : String) (d : EvalData)
    (h2 : lookupKey st.resolutions st.nextId = none)
    (h3 : lookupKey st.resolutions (st.nextId + 1) = none)
    (h4 : ∀ w ∈ st.wires, w.1 ≠ st.nextId + 1) :
    (onEvalResponse
      { st with
        evalsWaiting := (N, ⟨st.nextId + 1, st.nextId⟩) :: st.evalsWaiting,
        wires := (st.nextId + 1, st.nextId) :: st.wires,
        sent := st.sent ++ [N],
        nextId := st.nextId + 2 } N d).resolutions =
      (st.nextId, resolutionOfData d) :: (st.nextId + 1, resolutionOfData d) ::
        st.resolutions := by
  have hne : st.nextId + 1 ≠ st.nextId := Nat.succ_ne_self st.nextId
  have hstep : onEvalResponse
      { st with
        evalsWaiting := (N, ⟨st.nextId + 1, st.nextId⟩) :: st.evalsWaiting,
        wires := (st.nextId + 1, st.nextId) :: st.wires,
        sent := st.sent ++ [N],
        nextId := st.nextId + 2 } N d =
      resolveProm
        { st with
          evalsWaiting := eraseKey ((N, (⟨st.nextId + 1, st.nextId⟩ : EvalEntry)) :: st.evalsWaiting) N,
          wires := (st.nextId + 1, st.nextId) :: st.wires,
          sent := st.sent ++ [N],
          nextId := st.nextId + 2 } (st.nextId + 1) (resolutionOfData d) := by
    unfold onEvalResponse
    rw [show lookupKey ((N, (⟨st.nextId + 1, st.nextId⟩ : EvalEntry)) :: st.evalsWaiting) N = some ⟨st.nextId + 1, st.nextId⟩ from by simp [lookupKey]]
  rw [hstep]
  rw [resolveProm_resolutions_of_unresolved]
  case h => exact h3
  show wirePropagate ((st.nextId + 1, st.nextId) :: st.wires) (st.nextId + 1)
      (resolutionOfData d)
      ((st.nextId + 1, resolutionOfData d) :: st.resolutions) = _
  have hlk : lookupKey ((st.nextId + 1, resolutionOfData d) :: st.resolutions)
      st.nextId = none := by
    simp [lookupKey, hne, h2]
  have hcond : ((st.nextId + 1, st.nextId) : Nat × Nat).1 = st.nextId + 1 ∧
      (lookupKey ((st.nextId + 1, resolutionOfData d) :: st.resolutions)
        st.nextId).isNone := ⟨rfl, by simp [hlk]⟩
  simp only [wirePropagate, hlk, Option.isNone_none, and_true, true_and, if_true]
  exact wirePropagate_no_src st.wires _ (st.nextId + 1) (resolutionOfData d) h4

/-- Claim C6: a second `eval` call with a nonce that is already pending
returns the stored entry's promise and changes nothing (in particular no
second request is sent), and once the matching response arrives both callers'
promises are resolved with the same value, each bound exactly once (the
resolution list gains exactly the two bindings, and neither promise carried a
prior binding). -/
theorem eval_same_nonce_dedup_c6 (st : ProcState) (N : String) (d : EvalData)
    (p1 p2 : Nat) (st1 st2 : ProcState)
    (h1 : lookupKey st.evalsWaiting N = none)
    (h2 : lookupKey st.resolutions st.nextId = none)
    (h3 : lookupKey st.resolutions (st.nextId + 1) = none)
    (h4 : ∀ w ∈ st.wires, w.1 ≠ st.nextId + 1)
    (e1 : evalCall st N = some (p1, st1))
    (e2 : evalCall st1 N = some (p2, st2)) :
    st2 = st1 ∧
    (∃ entry, lookupKey st1.evalsWaiting N = some entry ∧ p2 = entry.promiseId) ∧
    st2.sent = st1.sent ∧
    (onEvalResponse st2 N d).resolutions =
      (p1, resolutionOfData d) :: (p2, resolutionOfData d) :: st.resolutions ∧
    lookupKey (onEvalResponse st2 N d).resolutions p1 = some (resolutionOfData d) ∧
    lookupKey (onEvalResponse st2 N d).resolutions p2 = some (resolutionOfData d) ∧
    lookupKey st.resolutions p1 = none ∧
    lookupKey st.resolutions p2 = none := by
  by_cases hAlive : st.processAlive
  case neg =>
    rw [evalCall, if_pos (by simpa using hAlive)] at e1
    exact absurd e1 (by simp)
  case pos =>
    rw [evalCall, if_neg (by simpa using hAlive), h1] at e1
    have hp1 : p1 = st.nextId := by
      have := congrArg (fun o => o.map Prod.fst) e1
      simpa using this.symm
    have hst1 : st1 =
        { st with
          evalsWaiting := (N, ⟨st.nextId + 1, st.nextId⟩) :: st.evalsWaiting,
          wires := (st.nextId + 1, st.nextId) :: st.wires,
          sent := st.sent ++ [N],
          nextId := st.nextId + 2 } := by
      have := congrArg (fun o => o.map Prod.snd) e1
      simpa using this.symm
    have hAlive1 : st1.processAlive := by rw [hst1]; simpa using hAlive
    have hlook1 : lookupKey st1.evalsWaiting N = some ⟨st.nextId + 1, st.nextId⟩ := by
      rw [hst1]
      simp [lookupKey]
    rw [evalCall, if_neg (by simpa using hAlive1), hlook1] at e2
    have hp2 : p2 = st.nextId + 1 := by
      have := congrArg (fun o => o.map Prod.fst) e2
      simpa using this.symm
    have hst2 : st2 = st1 := by
      have := congrArg (fun o => o.map Prod.snd) e2
      simpa using this.symm
    have hresp : (onEvalResponse st2 N d).resolutions =
        (st.nextId, resolutionOfData d) :: (st.nextId + 1, resolutionOfData d) ::
          st.resolutions := by
      rw [hst2, hst1]
      exact onEvalResponse_after_register st N d h2 h3 h4
    refine ⟨hst2, ⟨⟨st.nextId + 1, st.nextId⟩, hlook1, by simpa using hp2⟩,
      by rw [hst2], ?_, ?_, ?_, ?_, ?_⟩
    · rw [hresp, hp1, hp2]
    · rw [hresp, hp1]
      simp [lookupKey]
    · rw [hresp, hp2]
      simp [lookupKey, h2]
    · rw [hp1]; exact h2
    · rw [hp2]; exact h3

/-- Witness for C6: two `eval("n")` calls on a fresh process state followed
by a matching response resolving both promises 0 and 1 with the same
`[result, false]` pair. -/
theorem eval_same_nonce_dedup_c6_witness :
    lookupKey ((onEvalResponse pendingTwoCallers "n"
        { nonce := "n", result := some (JsValue.num 5) }).resolutions) 1 =
      some (resolutionOfData { nonce := "n", result := some (JsValue.num 5) }) :=
  (eval_same_nonce_dedup_c6 ({} : ProcState) "n"
    { nonce := "n", result := some (JsValue.num 5) } 0 1
    pendingTwoCallers pendingTwoCallers
    (by decide) (by decide) (by decide) (by decide) (by decide) (by decide)).2.2.2.2.2.1

/-! ## Store lemmas -/

theorem lookupKey_map_all {α β : Type} [DecidableEq α] (l : List (α × β)) (k : α)
    (f : β → β) :
    lookupKey (l.map (fun kv => (kv.1, f kv.2))) k = (lookupKey l k).map f := by
  induction l with
  | nil => rfl
  | cons hd t ih =>
    obtain ⟨a, b⟩ := hd
    by_cases hk : a = k
    · simp [lookupKey, hk]
    · simp [lookupKey, hk, ih]

theorem Store.sGet_sModify_self {α : Type} (s : Store α) (k : Snowflake) (f : α → α) :
    (s.sModify k f).sGet k = (s.sGet k).map f := by
  unfold Store.sGet Store.sModify
  by_cases he : s.enabled
  · simp [he, lookupKey_map_values]
  · simp [he]

theorem Store.sGet_sDelete_self {α : Type} (s : Store α) (k : Snowflake) :
    (s.sDelete k).sGet k = none := by
  unfold Store.sGet Store.sDelete
  by_cases he : s.enabled <;> simp [he, lookupKey_eraseKey]

theorem Store.sGet_sInsert_self {α : Type} (s : Store α) (k : Snowflake) (v : α)
    (he : s.enabled = true) : (s.sInsert k v).sGet k = some v := by
  unfold Store.sGet Store.sInsert
  simp [he, lookupKey_listSet_self]

theorem Store2.sGet2_sDelete1_self {α : Type} (s : Store2 α) (k1 k2 : Snowflake) :
    (s.sDelete1 k1).sGet2 k1 k2 = none := by
  unfold Store2.sGet2 Store2.sGet1 Store2.sDelete1
  by_cases he : s.enabled <;> simp [he, lookupKey_eraseKey]

theorem Store2.sGet2_sDelete2_self {α : Type} (s : Store2 α) (k1 k2 : Snowflake) :
    (s.sDelete2 k1 k2).sGet2 k1 k2 = none := by
  unfold Store2.sGet2 Store2.sGet1 Store2.sDelete2
  by_cases he : s.enabled
  · simp only [he, if_true]
    rw [lookupKey_map_values s.entries k1 (fun inner => eraseKey inner k2)]
    cases hl : lookupKey s.entries k1 with
    | none => simp
    | some inner => simp [lookupKey_eraseKey]
  · simp [he]

theorem Store2.sGet2_sModify2_self {α : Type} (s : Store2 α) (k1 k2 : Snowflake)
    (f : α → α) : (s.sModify2 k1 k2 f).sGet2 k1 k2 = (s.sGet2 k1 k2).map f := by
  unfold Store2.sGet2 Store2.sGet1 Store2.sModify2
  by_cases he : s.enabled
  · simp only [he, if_true]
    rw [lookupKey_map_values s.entries k1
      (fun inner => inner.map (fun kv2 => (kv2.1, if kv2.1 = k2 then f kv2.2 else kv2.2)))]
    cases hl : lookupKey s.entries k1 with
    | none => simp
    | some inner => simp [lookupKey_map_values]
  · simp [he]

theorem Store2.sGet2_sModifyAll_self {α : Type} (s : Store2 α) (k1 k2 : Snowflake)
    (f : α → α) : (s.sModifyAll k1 f).sGet2 k1 k2 = (s.sGet2 k1 k2).map f := by
  unfold Store2.sGet2 Store2.sGet1 Store2.sModifyAll
  by_cases he : s.enabled
  · simp only [he, if_true]
    rw [lookupKey_map_values s.entries k1
      (fun inner => inner.map (fun kv2 => (kv2.1, f kv2.2)))]
    cases hl : lookupKey s.entries k1 with
    | none => simp
    | some inner => simp [lookupKey_map_all]
  · simp [he]

theorem lookupKey_mem {α β : Type} [DecidableEq α] (l : List (α × β)) (k : α) (v : β)
    (h : lookupKey l k = some v) : (k, v) ∈ l := by
  induction l with
  | nil => cases h
  | cons hd t ih =>
    obtain ⟨a, b⟩ := hd
    by_cases hk : a = k
    · subst hk
      simp only [lookupKey, if_pos rfl] at h
      cases h
      exact List.mem_cons_self _ _
    · simp only [lookupKey, if_neg hk] at h
      exact List.mem_cons_of_mem _ (ih h)

/-- A well-keyed single-level store: every cached entity's id is its key
(this is how every store is populated by the handlers). -/
abbrev storeKeyedGuilds (guilds : Store Guild) : Prop :=
  ∀ kv ∈ guilds.entries, (kv.2 : Guild).id = kv.1

theorem storeKeyedGuilds_sGet (guilds : Store Guild) (h : storeKeyedGuilds guilds)
    (k : Snowflake) (g : Guild) (hg : guilds.sGet k = some g) : g.id = k := by
  unfold Store.sGet at hg
  by_cases he : guilds.enabled
  · rw [if_pos (by simpa using he)] at hg
    exact h (k, g) (lookupKey_mem _ _ _ hg)
  · rw [if_neg (by simpa using he)] at hg
    cases hg

theorem Store2.sGet2_sInsert2_self {α : Type} (s : Store2 α) (k1 k2 : Snowflake)
    (v : α) (he : s.enabled = true) : (s.sInsert2 k1 k2 v).sGet2 k1 k2 = some v := by
  unfold Store2.sGet2 Store2.sGet1 Store2.sInsert2
  simp [he, lookupKey_listSet_self]

theorem MessagesStore.mGet_mDelete1_self (s : MessagesStore) (k mid : Snowflake) :
    (s.mDelete1 k).mGet (some k) mid = none := by
  unfold MessagesStore.mGet MessagesStore.mDelete1
  by_cases he : s.enabled <;> simp [he, lookupKey_eraseKey]

/-! ## Claim C8 -/

theorem mergeRolesFold_keeps_default (guilds : Store Guild) (gid : Snowflake)
    (hkeyed : ∀ k g, guilds.sGet k = some g → g.id = k) (L : List Snowflake)
    (acc : List (Snowflake × Option Role))
    (hacc : lookupKey acc gid = some (defaultRoleOf guilds gid)) :
    lookupKey
      (L.foldl (fun acc' roleId =>
        listSet acc' roleId (match guilds.sGet gid with
                             | some g => lookupKey g.roles roleId
                             | none => none)) acc) gid =
      some (defaultRoleOf guilds gid) := by
  induction L generalizing acc with
  | nil => exact hacc
  | cons r t ih =>
    simp only [List.foldl]
    apply ih
    by_cases hr : r = gid
    · subst hr
      rw [lookupKey_listSet_self]
      cases hl : guilds.sGet r with
      | none => simp [defaultRoleOf, hl]
      | some g =>
        have hid : g.id = r := hkeyed r g hl
        simp [defaultRoleOf, hl, Guild.defaultRole, hid]
    · rw [lookupKey_listSet_ne _ _ _ _ hr]
      exact hacc

/-- Claim C8: the collection returned by the member's `roles` accessor always
holds an entry keyed by the member's guild id mapping to the guild's default
role (or `null` when the guild is not cached): when the member carries no
explicit role list the accessor synthesizes exactly that entry, and merging
any non-empty role-id list re-inserts it before the listed roles (a listed
role id equal to the guild id re-resolves to the same default role, the role
keyed by the guild's own id). -/
theorem member_roles_default_entry_c8 (guilds : Store Guild) (m : Member)
    (hk : storeKeyedGuilds guilds) :
    (m.rolesRaw = none →
      lookupKey (m.rolesGet guilds) m.guildId = some (defaultRoleOf guilds m.guildId)) ∧
    (∀ L, L ≠ [] →
      lookupKey ((m.mergeRoles guilds L).rolesGet guilds) m.guildId =
        some (defaultRoleOf guilds m.guildId)) := by
  constructor
  · intro hnone
    simp [Member.rolesGet, hnone, lookupKey]
  · intro L hL
    cases L with
    | nil => exact absurd rfl hL
    | cons r t =>
      show lookupKey (Member.rolesGet guilds (Member.mergeRoles guilds m (r :: t)))
        m.guildId = _
      unfold Member.mergeRoles
      simp only [Member.rolesGet]
      apply mergeRolesFold_keeps_default guilds m.guildId
        (fun k g hg => storeKeyedGuilds_sGet guilds hk k g hg)
      rw [lookupKey_listSet_self]
      cases hl : guilds.sGet m.guildId with
      | none => simp [defaultRoleOf, hl]
      | some g => simp [defaultRoleOf, hl]

/-- A concrete guild store for the C8 witness: guild `g1` whose role table
holds its default role (keyed by the guild's own id) and one ordinary
role. -/
def c8guilds : Store Guild :=
  { enabled := true,
    entries := [("g1",
      { id := "g1",
        roles := [("g1", { id := "g1" }), ("r1", { id := "r1", color := 5 })] })] }

/-- Witness for C8: a member of `g1` with no explicit role list, then merged
with the role list `[r1]`; both views of its role collection hold the
default-role entry. -/
theorem member_roles_default_entry_c8_witness :
    lookupKey
      ((Member.mergeRoles c8guilds { guildId := "g1", userId := "u1" } ["r1"]).rolesGet
        c8guilds) "g1" = some (defaultRoleOf c8guilds "g1") :=
  (member_roles_default_entry_c8 c8guilds { guildId := "g1", userId := "u1" }
    (by decide)).2 ["r1"] (by decide)

/-! ## Claim C2 -/

theorem store2Keyed_sGet2 (s : Store2 Member)
    (h : ∀ kv ∈ s.entries, ∀ kv2 ∈ kv.2, (kv2.2 : Member).guildId = kv.1)
    (g u : Snowflake) (m : Member) (hm : s.sGet2 g u = some m) : m.guildId = g := by
  unfold Store2.sGet2 Store2.sGet1 at hm
  by_cases he : s.enabled
  · rw [if_pos (by simpa using he)] at hm
    cases hl : lookupKey s.entries g with
    | none => rw [hl] at hm; cases hm
    | some inner =>
      rw [hl] at hm
      simp only [Option.bind] at hm
      exact h (g, inner) (lookupKey_mem _ _ _ hl) (u, m) (lookupKey_mem _ _ _ hm)
  · rw [if_neg (by simpa using he)] at hm
    cases hm

/-- The cache used by the C2 counterexample: guild `g1` caching only its
default role (keyed by the guild's own id) and one member of `g1` with no
explicit role list. -/
def c2cache : ClientCache :=
  let g1 : Guild := { id := "g1", roles := [("g1", { id := "g1" })] }
  let m1 : Member := { guildId := "g1", userId := "u1" }
  { guilds := { enabled := true, entries := [("g1", g1)] },
    members := { enabled := true, entries := [("g1", [("u1", m1)])] } }

/-- Claim C2, counterexample: a `GUILD_ROLE_DELETE` whose role id equals the
guild id (the guild's default role).  The role disappears from the guild's
role collection, but the member with no explicit role list still reports a
role collection containing that id afterwards, because the `roles` accessor
re-synthesizes the default-role entry — so "that member's role set no longer
contains r" fails for r = guild id. -/
theorem role_delete_everyone_cex_c2 :
    (handleGuildRoleDelete c2cache ⟨"g1", "g1"⟩).members.sGet2 "g1" "u1" =
      some { guildId := "g1", userId := "u1" } ∧
    lookupKey
      (Member.rolesGet (handleGuildRoleDelete c2cache ⟨"g1", "g1"⟩).guilds
        { guildId := "g1", userId := "u1" }) "g1" = some none ∧
    (∀ G', (handleGuildRoleDelete c2cache ⟨"g1", "g1"⟩).guilds.sGet "g1" = some G' →
      lookupKey G'.roles "g1" = none) := by
  refine ⟨by decide, by decide, ?_⟩
  intro G' hG'
  have : (handleGuildRoleDelete c2cache ⟨"g1", "g1"⟩).guilds.sGet "g1" =
      some { id := "g1" } := by decide
  rw [this] at hG'
  cases hG'
  decide

/-- Claim C2 (amended): for a `GUILD_ROLE_DELETE` with guild id `g` cached
and role id `r` distinct from `g` (the protocol never deletes the default
role, whose id is the guild id), after the handler the cached guild's role
collection no longer contains `r` and no cached member of `g` — including
members inserted after the role was created — has `r` in its role
collection.  (For `r = g` the accessor of a member without an explicit role
list re-synthesizes the entry; see the counterexample.) -/
theorem role_delete_sweeps_members_c2 (c : ClientCache) (g r : Snowflake)
    (hg : c.guilds.sHas g = true) (hr : r ≠ g)
    (hk : ∀ kv ∈ c.members.entries, ∀ kv2 ∈ kv.2, (kv2.2 : Member).guildId = kv.1) :
    (∀ G', (handleGuildRoleDelete c ⟨g, r⟩).guilds.sGet g = some G' →
      lookupKey G'.roles r = none) ∧
    (∀ u m', (handleGuildRoleDelete c ⟨g, r⟩).members.sGet2 g u = some m' →
      lookupKey (Member.rolesGet (handleGuildRoleDelete c ⟨g, r⟩).guilds m') r =
        none) := by
  have hgu : (handleGuildRoleDelete c ⟨g, r⟩).guilds =
      c.guilds.sModify g (fun G =>
        if (lookupKey G.roles r).isSome
        then { G with roles := eraseKey G.roles r }
        else G) := by
    unfold handleGuildRoleDelete
    simp only [hg, if_true]
    split
    · rfl
    · rfl
  have hmem : ∀ u,
      (handleGuildRoleDelete c ⟨g, r⟩).members.sGet2 g u =
        (c.members.sGet2 g u).map (fun m => m.rolesDelete r) ∨
      (handleGuildRoleDelete c ⟨g, r⟩).members.sGet2 g u = none := by
    intro u
    unfold handleGuildRoleDelete
    simp only [hg, if_true]
    split
    · left
      exact Store2.sGet2_sModifyAll_self c.members g u (fun m => m.rolesDelete r)
    · right
      next hnone =>
      have hnone' : c.members.sGet1 g = none := hnone
      show c.members.sGet2 g u = none
      unfold Store2.sGet2
      rw [hnone']
      rfl
  constructor
  · intro G' hG'
    rw [hgu, Store.sGet_sModify_self] at hG'
    cases hc : c.guilds.sGet g with
    | none => rw [hc] at hG'; cases hG'
    | some G =>
      rw [hc] at hG'
      simp only [Option.map] at hG'
      cases hG'
      by_cases hs : (lookupKey G.roles r).isSome
      · simp only [if_pos hs]
        exact lookupKey_eraseKey _ _
      · simp only [if_neg hs]
        exact Option.not_isSome_iff_eq_none.mp hs
  · intro u m' hm'
    rcases hmem u with hmem | hmem
    · rw [hmem] at hm'
      cases hc : c.members.sGet2 g u with
      | none => rw [hc] at hm'; cases hm'
      | some m =>
        rw [hc] at hm'
        simp only [Option.map] at hm'
        have hgid : m.guildId = g := store2Keyed_sGet2 c.members hk g u m hc
        cases hm'
        unfold Member.rolesDelete
        cases hraw : m.rolesRaw with
        | none =>
          simp only [hraw, Member.rolesGet, hgid]
          simp [lookupKey, Ne.symm hr]
        | some cl =>
          simp only [hraw, Member.rolesGet]
          exact lookupKey_eraseKey _ _
    · rw [hmem] at hm'
      cases hm'

/-- The cache used by the C2 witness: guild `g1` with its default role and a
role `r1`, and one member of `g1` whose explicit role collection holds
both. -/
def c2wcache : ClientCache :=
  let rG : Role := { id := "g1" }
  let rR : Role := { id := "r1", color := 7 }
  let g1 : Guild := { id := "g1", roles := [("g1", rG), ("r1", rR)] }
  let m1 : Member :=
    { guildId := "g1", userId := "u1", rolesRaw := some [("g1", some rG), ("r1", some rR)] }
  { guilds := { enabled := true, entries := [("g1", g1)] },
    members := { enabled := true, entries := [("g1", [("u1", m1)])] } }

/-- The member of the C2 witness after the role delete swept it. -/
def c2wmemberAfter : Member :=
  { guildId := "g1", userId := "u1", rolesRaw := some [("g1", some { id := "g1" })] }

/-- Witness for C2 (amended) at a concrete cache: deleting role `r1` of
guild `g1` leaves the cached member's role collection without `r1`. -/
theorem role_delete_sweeps_members_c2_witness :
    lookupKey
      (Member.rolesGet (handleGuildRoleDelete c2wcache ⟨"g1", "r1"⟩).guilds
        c2wmemberAfter) "r1" = none :=
  (role_delete_sweeps_members_c2 c2wcache "g1" "r1" (by decide) (by decide)
    (by decide)).2 "u1" c2wmemberAfter (by decide)

/-! ## Claim C3 -/

/-- The cache used by the C3 counterexample: guild `g1` with five members
counted, and a disabled member store (spec section 4.1: inserts into a
disabled store are no-ops). -/
def c3cache : ClientCache :=
  let g1 : Guild := { id := "g1", memberCount := 5 }
  { guilds := { enabled := true, entries := [("g1", g1)] },
    members := { enabled := false, entries := [] } }

/-- The member-add payload shared by the C3 counterexample and witness. -/
def c3data : GuildMemberAddData :=
  { guildId := "g1", userId := "u1", username := "alice" }

/-- Claim C3, counterexample: with the member store disabled the handler
still increments the cached guild's `memberCount`, but the member keyed by
(guildId, userId) is not present in the member store afterwards, against the
claim's unconditional "afterwards the member ... is present". -/
theorem member_add_disabled_store_cex_c3 :
    c3cache.guilds.sHas "g1" = true ∧
    (handleGuildMemberAdd c3cache c3data).guilds.sGet "g1" =
      some { id := "g1", memberCount := 6 } ∧
    (handleGuildMemberAdd c3cache c3data).members.sHas2 "g1" "u1" = false := by
  decide

/-- Claim C3 (amended): for every `GUILD_MEMBER_ADD` whose guild is cached,
the handler increments that guild's `memberCount` by exactly 1 — whether or
not the member object was already cached — and afterwards, provided the
member store is enabled, the member keyed by (guildId, userId) is present in
the member store. -/
theorem member_add_count_c3 (c : ClientCache) (d : GuildMemberAddData) (G : Guild)
    (hg : c.guilds.sGet d.guildId = some G) :
    (handleGuildMemberAdd c d).guilds.sGet d.guildId =
      some { G with memberCount := G.memberCount + 1 } ∧
    (c.members.enabled = true →
      (handleGuildMemberAdd c d).members.sHas2 d.guildId d.userId = true) := by
  have hhas : c.guilds.sHas d.guildId = true := by
    unfold Store.sHas
    rw [hg]
    rfl
  constructor
  · unfold handleGuildMemberAdd
    simp only [hhas, if_true]
    show (c.guilds.sModify d.guildId
      (fun g => { g with memberCount := g.memberCount + 1 })).sGet d.guildId = _
    rw [Store.sGet_sModify_self, hg]
    rfl
  · intro he
    unfold handleGuildMemberAdd
    by_cases hm : c.members.sHas2 d.guildId d.userId
    · simp only [hm, if_true]
      show (c.members.sModify2 d.guildId d.userId
        (fun m => memberMergeAdd m d)).sHas2 d.guildId d.userId = true
      unfold Store2.sHas2
      rw [Store2.sGet2_sModify2_self]
      unfold Store2.sHas2 at hm
      cases hx : c.members.sGet2 d.guildId d.userId with
      | none =>
        rw [hx] at hm
        cases hm
      | some m => rfl
    · simp only [hm, if_false]
      show (c.members.sInsert2 d.guildId d.userId
        (memberMergeAdd {} d)).sHas2 d.guildId d.userId = true
      unfold Store2.sHas2
      rw [Store2.sGet2_sInsert2_self _ _ _ _ he]
      rfl

/-- The cache used by the C3 witness: same guild, member store enabled. -/
def c3wcache : ClientCache :=
  let g1 : Guild := { id := "g1", memberCount := 5 }
  { guilds := { enabled := true, entries := [("g1", g1)] },
    members := { enabled := true, entries := [] } }

/-- Witness for C3 (amended): adding `u1` to guild `g1` (memberCount 5)
yields memberCount 6 and a cached member. -/
theorem member_add_count_c3_witness :
    (handleGuildMemberAdd c3wcache c3data).guilds.sGet "g1" =
      some { id := "g1", memberCount := 6 } ∧
    (handleGuildMemberAdd c3wcache c3data).members.sHas2 "g1" "u1" = true :=
  ⟨(member_add_count_c3 c3wcache c3data { id := "g1", memberCount := 5 }
      (by decide)).1,
   (member_add_count_c3 c3wcache c3data { id := "g1", memberCount := 5 }
      (by decide)).2 (by decide)⟩

/-! ## Claim C10 -/

/-- The cache used by the C10 counterexample: an enabled, empty voice-state
store. -/
def c10cache : ClientCache :=
  { voiceStates := { enabled := true, entries := [] } }

/-- The voice-state payload shared by the C10 theorems: user `u1` of guild
`g1` with a null channel id. -/
def c10data : VoiceStateUpdateData :=
  { guildId := some "g1", channelId := none, userId := "u1" }

/-- Claim C10, counterexample: a `VOICE_STATE_UPDATE` with a null channel id
for a user with no cached voice state takes the handler's else-branch, which
constructs and inserts a new (channel-less) voice state — afterwards the
store does contain an entry keyed by (server id, user id), against the
claim's "contains no entry". -/
theorem voice_null_uncached_insert_cex_c10 :
    c10cache.voiceStates.sHas2 "g1" "u1" = false ∧
    (handleVoiceStateUpdate c10cache c10data).voiceStates.sHas2 "g1" "u1" = true := by
  decide

/-- Claim C10 (amended): for every `VOICE_STATE_UPDATE` carrying a null
channel id whose (guild-or-channel server id, user id) is already present in
the voice-state store, the handler merges and then deletes the entry, so the
store no longer contains it; an uncached voice state is instead inserted
(see the counterexample). -/
theorem voice_null_deletes_cached_c10 (c : ClientCache) (d : VoiceStateUpdateData)
    (hch : d.channelId = none)
    (hpre : c.voiceStates.sHas2 (voiceServerId d) d.userId = true) :
    (handleVoiceStateUpdate c d).voiceStates.sGet2 (voiceServerId d) d.userId =
      none := by
  unfold handleVoiceStateUpdate
  simp only [hpre, if_true, hch]
  show ((c.voiceStates.sModify2 (voiceServerId d) d.userId
      (fun vs => voiceStateMerge vs d)).sDelete2 (voiceServerId d) d.userId).sGet2
      (voiceServerId d) d.userId = none
  exact Store2.sGet2_sDelete2_self _ _ _

/-- The cache used by the C10 witness: user `u1` of guild `g1` cached in
channel `ch1`. -/
def c10wcache : ClientCache :=
  let vs : VoiceState := { serverId := "g1", userId := "u1", channelId := some "ch1" }
  { voiceStates := { enabled := true, entries := [("g1", [("u1", vs)])] } }

/-- Witness for C10 (amended): the cached voice state of `u1` is gone after
the null-channel update. -/
theorem voice_null_deletes_cached_c10_witness :
    (handleVoiceStateUpdate c10wcache c10data).voiceStates.sGet2 "g1" "u1" = none :=
  voice_null_deletes_cached_c10 c10wcache c10data (by decide) (by decide)

/-! ## Claim C7 -/

/-- The handler state of the C7 counterexample and witness: guild `g1`
already `done` (its members were chunked in the current session). -/
def c7state : HandlerState :=
  { shouldLoadAllMembers := true,
    memberChunks := { left := [], sending := [], done := ["g1"] } }

/-- READY payload entry of the C7 counterexample: guild `g1` re-listed as
unavailable after a reconnect. -/
def c7readyGuild : ReadyGuildData := { id := "g1", unavailable := true }

/-- The `GUILD_CREATE` payload of the C7 counterexample: `g1` becomes
available with five members, none of them cached after the READY reset. -/
def c7createData : GuildCreateData := { id := "g1", memberCount := 5 }

/-- The state after the reconnect READY of the C7 counterexample. -/
def c7afterReady : HandlerState := handleReady c7state [c7readyGuild]

/-- Claim C7, counterexample: the READY guild loop adds an unavailable guild
to `left` without consulting `done`, and nothing removes the id from `done`
(the cache reset clears the entity stores, not the coordinator's sets).  So
after a reconnect READY re-listing the already-`done` guild `g1` as
unavailable, `g1` sits in both `done` and `left`, and the next
`GUILD_CREATE` for it takes the `left`-branch: `g1` is added to `sending`
while still in `done`, and the timer fire issues a member-list request for
it — the re-queue the claim says never happens before a `GUILD_DELETE`. -/
theorem ready_requeues_done_guild_cex_c7 :
    "g1" ∈ c7state.memberChunks.done ∧
    "g1" ∈ c7afterReady.memberChunks.done ∧
    "g1" ∈ c7afterReady.memberChunks.left ∧
    "g1" ∈ (handleGuildCreate c7afterReady c7createData).memberChunks.sending ∧
    "g1" ∈ (handleGuildCreate c7afterReady c7createData).memberChunks.done ∧
    (fireChunkTimer (handleGuildCreate c7afterReady c7createData)).requests =
      [["g1"]] := by
  decide

/-- Claim C7 (amended): a `GUILD_CREATE` for a guild id in the coordinator's
`done` set that is not currently in `left` changes none of the coordinator
state — the id is not added to `sending`, the debounce timer is not armed,
and no member-list request results now or when the timer later fires — until
a `GUILD_DELETE` for the guild, which removes the id from `done`.  The
not-in-`left` proviso is forced by the counterexample: a reconnect READY
re-listing the guild as unavailable puts it back into `left` without
consulting `done`, and the next `GUILD_CREATE` then re-queues it into
`sending` while it is still `done`. -/
theorem chunk_done_not_left_no_requeue_c7 (st : HandlerState) (d : GuildCreateData)
    (dd : GuildDeleteData)
    (hdone : d.id ∈ st.memberChunks.done)
    (hleft : d.id ∉ st.memberChunks.left)
    (hdd : dd.id = d.id) :
    (handleGuildCreate st d).memberChunks = st.memberChunks ∧
    (handleGuildCreate st d).requests = st.requests ∧
    (fireChunkTimer (handleGuildCreate st d)).requests = (fireChunkTimer st).requests ∧
    d.id ∉ (handleGuildDelete st dd).memberChunks.done := by
  have hcreate : (handleGuildCreate st d).memberChunks = st.memberChunks ∧
      (handleGuildCreate st d).requests = st.requests := by
    unfold handleGuildCreate
    by_cases hl : st.shouldLoadAllMembers
    · simp only [hl, if_true]
      rw [if_neg (not_not_intro hdone)]
      rw [if_neg hleft]
      constructor <;> trivial
    · simp only [hl, Bool.false_eq_true, if_false]
      constructor <;> trivial
  refine ⟨hcreate.1, hcreate.2, ?_, ?_⟩
  · unfold fireChunkTimer
    rw [hcreate.1, hcreate.2]
    split
    · split
      · rfl
      · rfl
    · exact hcreate.2
  · have hdel : (handleGuildDelete st dd).memberChunks.done =
        st.memberChunks.done.filter (fun g => g ≠ dd.id) := rfl
    rw [hdel, hdd]
    intro hmem
    rcases List.mem_filter.mp hmem with ⟨_, hfalse⟩
    simp at hfalse

/-- Witness for C7 (amended): a repeated `GUILD_CREATE` for the `done` (and
not `left`) guild `g1` leaves the coordinator state untouched, and a
`GUILD_DELETE` removes `g1` from `done`. -/
theorem chunk_done_not_left_no_requeue_c7_witness :
    (handleGuildCreate c7state { id := "g1", memberCount := 3 }).memberChunks =
      c7state.memberChunks ∧
    "g1" ∉ (handleGuildDelete c7state { id := "g1" }).memberChunks.done :=
  ⟨(chunk_done_not_left_no_requeue_c7 c7state { id := "g1", memberCount := 3 }
      { id := "g1" } (by decide) (by decide) rfl).1,
   (chunk_done_not_left_no_requeue_c7 c7state { id := "g1", memberCount := 3 }
      { id := "g1" } (by decide) (by decide) rfl).2.2.2⟩

/-! ## Claim C9 -/

/-- The invariant of the claim: no cached message holds an empty live
reaction collection (it is either absent or non-empty). -/
abbrev msgStoreWF (s : MessagesStore) : Prop :=
  ∀ kv ∈ s.entries, ∀ kv2 ∈ kv.2, (kv2.2 : Message).reactionsRaw ≠ some []

theorem mUpdate_WF (s : MessagesStore) (k : Option Snowflake) (mid : Snowflake)
    (f : Message → Message)
    (hf : ∀ msg : Message, msg.reactionsRaw ≠ some [] → (f msg).reactionsRaw ≠ some [])
    (h : msgStoreWF s) : msgStoreWF (s.mUpdate k mid f) := by
  intro kv hkv kv2 hkv2
  unfold MessagesStore.mUpdate at hkv
  simp only [List.mem_map] at hkv
  obtain ⟨orig, horig, rfl⟩ := hkv
  by_cases hc : k = none ∨ k = some orig.1
  · simp only [if_pos hc] at hkv2
    simp only [List.mem_map] at hkv2
    obtain ⟨o2, ho2, rfl⟩ := hkv2
    by_cases hm : o2.1 = mid
    · simp only [if_pos hm]
      exact hf o2.2 (h orig horig o2 ho2)
    · simp only [if_neg hm]
      exact h orig horig o2 ho2
  · simp only [if_neg hc] at hkv2
    exact h orig horig kv2 hkv2

theorem runReactionHandler_WF (s : MessagesStore) (d : ReactionEventData)
    (f : Message → Message)
    (hf : ∀ msg : Message, msg.reactionsRaw ≠ some [] → (f msg).reactionsRaw ≠ some [])
    (h : msgStoreWF s) : msgStoreWF (runReactionHandler s d f) := by
  unfold runReactionHandler
  split
  · exact mUpdate_WF _ _ _ _ hf h
  · exact h

theorem reactionAdd_pointwise (meUserId : Option Snowflake) (d : ReactionEventData)
    (msg : Message) :
    (reactionAddOnMessage meUserId d msg).reactionsRaw ≠ some [] := by
  unfold reactionAddOnMessage
  split
  · split
    · intro hcon
      injection hcon with hx
      exact listSet_ne_nil _ _ _ hx
    · intro hcon
      injection hcon with hx
      exact listSet_ne_nil _ _ _ hx
  · intro hcon
    injection hcon with hx
    exact listSet_ne_nil _ _ _ hx

theorem reactionRemove_pointwise (meUserId : Option Snowflake) (d : ReactionEventData)
    (msg : Message) (hm : msg.reactionsRaw ≠ some []) :
    (reactionRemoveOnMessage meUserId d msg).reactionsRaw ≠ some [] := by
  unfold reactionRemoveOnMessage
  split
  · split
    · split
      · split
        next hlen0 => simp
        next hlen0 =>
          intro hcon
          injection hcon with hx
          exact hlen0 (by rw [hx]; rfl)
      · intro hcon
        injection hcon with hx
        exact listSet_ne_nil _ _ _ hx
    · exact hm
  · exact hm

theorem reactionRemoveAll_pointwise (msg : Message) :
    (reactionRemoveAllOnMessage msg).reactionsRaw ≠ some [] := by
  unfold reactionRemoveAllOnMessage
  split
  · simp
  · next hnone => simp [hnone]

/-- Claim C9: the reaction handlers keep every cached message's reaction
collection absent-or-non-empty — reaction add lazily allocates and leaves a
non-empty collection, reaction remove deletes an emptied reaction and tears
an emptied collection down to absent, and remove-all always tears the
collection down to absent. -/
theorem reaction_collection_nonempty_c9 (meUserId : Option Snowflake)
    (s : MessagesStore) (d1 d2 d3 : ReactionEventData) (h : msgStoreWF s) :
    msgStoreWF (handleReactionAdd meUserId s d1) ∧
    msgStoreWF (handleReactionRemove meUserId s d2) ∧
    msgStoreWF (handleReactionRemoveAll s d3) := by
  refine ⟨?_, ?_, ?_⟩
  · exact runReactionHandler_WF s d1 _
      (fun msg _ => reactionAdd_pointwise meUserId d1 msg) h
  · exact runReactionHandler_WF s d2 _
      (fun msg hmsg => reactionRemove_pointwise meUserId d2 msg hmsg) h
  · exact runReactionHandler_WF s d3 _
      (fun msg _ => reactionRemoveAll_pointwise msg) h

/-- The message store of the C9 witness: one cached guild message carrying a
single reaction with count 1. -/
def c9store : MessagesStore :=
  let r1 : Reaction := { emojiId := "e1", count := 1 }
  let msg1 : Message :=
    { id := "m1", channelId := "ch1", authorId := "u1", guildId := some "g1",
      reactionsRaw := some [("e1", r1)] }
  { type := MessageCacheTypes.guild, enabled := true,
    entries := [("g1", [("m1", msg1)])] }

/-- The reaction event of the C9 witness: removing the last `e1` reaction
from that message. -/
def c9event : ReactionEventData :=
  { channelId := "ch1", messageId := "m1", guildId := some "g1",
    userId := "u2", emojiId := "e1" }

/-- Witness for C9: after removing the last reaction the store still
satisfies the absent-or-non-empty invariant (the collection is torn down to
absent rather than left empty). -/
theorem reaction_collection_nonempty_c9_witness :
    msgStoreWF (handleReactionRemove none c9store c9event) :=
  (reaction_collection_nonempty_c9 none c9store c9event c9event c9event
    (by decide)).2.1

/-! ## Claim C1 -/

theorem sweepFold_members (l : List (Snowflake × Channel)) (c : ClientCache) :
    (l.foldl sweepChannelStep c).members = c.members := by
  induction l generalizing c with
  | nil => rfl
  | cons hd t ih => exact ih (sweepChannelStep c hd)

theorem sweepFold_voiceStates (l : List (Snowflake × Channel)) (c : ClientCache) :
    (l.foldl sweepChannelStep c).voiceStates = c.voiceStates := by
  induction l generalizing c with
  | nil => rfl
  | cons hd t ih => exact ih (sweepChannelStep c hd)

theorem sweepFold_users (l : List (Snowflake × Channel)) (c : ClientCache) :
    (l.foldl sweepChannelStep c).users = c.users := by
  induction l generalizing c with
  | nil => rfl
  | cons hd t ih => exact ih (sweepChannelStep c hd)

theorem sweepFold_messages_type (l : List (Snowflake × Channel)) (c : ClientCache) :
    (l.foldl sweepChannelStep c).messages.type = c.messages.type := by
  induction l generalizing c with
  | nil => rfl
  | cons hd t ih => exact ih (sweepChannelStep c hd)

theorem userFold_members (l : List (Snowflake × Message)) (c : ClientCache) :
    (l.foldl sweepUserMessageStep c).members = c.members := by
  induction l generalizing c with
  | nil => rfl
  | cons hd t ih => exact ih (sweepUserMessageStep c hd)

theorem userFold_voiceStates (l : List (Snowflake × Message)) (c : ClientCache) :
    (l.foldl sweepUserMessageStep c).voiceStates = c.voiceStates := by
  induction l generalizing c with
  | nil => rfl
  | cons hd t ih => exact ih (sweepUserMessageStep c hd)

theorem userFold_users (l : List (Snowflake × Message)) (c : ClientCache) :
    (l.foldl sweepUserMessageStep c).users = c.users := by
  induction l generalizing c with
  | nil => rfl
  | cons hd t ih => exact ih (sweepUserMessageStep c hd)

theorem sweepGuildCore_members (c : ClientCache) (gid u : Snowflake) :
    (sweepGuildCore c gid).members.sGet2 gid u = none := by
  show (((c.channels.toList.filter (fun kv => kv.2.guildId = some gid)).foldl
    sweepChannelStep c).members.sDelete1 gid).sGet2 gid u = none
  exact Store2.sGet2_sDelete1_self _ _ _

theorem sweepGuildCore_voiceStates (c : ClientCache) (gid u : Snowflake) :
    (sweepGuildCore c gid).voiceStates.sGet2 gid u = none := by
  show (((c.channels.toList.filter (fun kv => kv.2.guildId = some gid)).foldl
    sweepChannelStep c).voiceStates.sDelete1 gid).sGet2 gid u = none
  exact Store2.sGet2_sDelete1_self _ _ _

theorem sweepGuildCore_users (c : ClientCache) (gid : Snowflake) :
    (sweepGuildCore c gid).users = c.users := by
  show ((c.channels.toList.filter (fun kv => kv.2.guildId = some gid)).foldl
    sweepChannelStep c).users = c.users
  exact sweepFold_users _ _

theorem sweepGuildCore_messages_type (c : ClientCache) (gid : Snowflake) :
    (sweepGuildCore c gid).messages.type = c.messages.type := by
  show ((c.channels.toList.filter (fun kv => kv.2.guildId = some gid)).foldl
    sweepChannelStep c).messages.type = c.messages.type
  exact sweepFold_messages_type _ _

theorem sweepGuildCore_messages_mGet (c : ClientCache) (gid mid : Snowflake) :
    (sweepGuildCore c gid).messages.mGet (some gid) mid = none := by
  show (((c.channels.toList.filter (fun kv => kv.2.guildId = some gid)).foldl
    sweepChannelStep c).messages.mDelete1 gid).mGet (some gid) mid = none
  exact MessagesStore.mGet_mDelete1_self _ _ _

theorem sweepGuild_members (c : ClientCache) (gid u : Snowflake) :
    (sweepGuild c gid).members.sGet2 gid u = none := by
  unfold sweepGuild
  split
  · rw [userFold_members]
    exact sweepGuildCore_members _ _ _
  · exact sweepGuildCore_members _ _ _

theorem sweepGuild_voiceStates (c : ClientCache) (gid u : Snowflake) :
    (sweepGuild c gid).voiceStates.sGet2 gid u = none := by
  unfold sweepGuild
  split
  · rw [userFold_voiceStates]
    exact sweepGuildCore_voiceStates _ _ _
  · exact sweepGuildCore_voiceStates _ _ _

theorem sweepGuild_users (c : ClientCache) (gid : Snowflake) :
    (sweepGuild c gid).users = c.users := by
  unfold sweepGuild
  split
  · rw [userFold_users]
    exact sweepGuildCore_users _ _
  · exact sweepGuildCore_users _ _

theorem sweepGuild_messages (c : ClientCache) (gid : Snowflake)
    (hty : c.messages.type = MessageCacheTypes.guild) (mid : Snowflake) :
    (sweepGuild c gid).messages.mGet (some gid) mid = none := by
  unfold sweepGuild
  split
  · next htyu =>
    exfalso
    have htyu' : c.messages.type = MessageCacheTypes.user :=
      (sweepGuildCore_messages_type c gid) ▸ htyu
    rw [hty] at htyu'
    cases htyu'
  · exact sweepGuildCore_messages_mGet _ _ _

/-- Claim C1: handling `GUILD_DELETE` for a guild present in the guild cache
runs the cascading sweep — afterwards no member of that guild is in the
member store, no voice state of that guild is in the voice-state store, and
(when the message cache mode is per-guild) no message keyed under that guild
is in the message store; the user store is left untouched, so every user
cached via another guild's members, a DM channel's recipients or a
relationship is still cached. -/
theorem guild_delete_cascade_c1 (st : HandlerState) (d : GuildDeleteData)
    (hg : st.cache.guilds.sHas d.id = true)
    (hty : st.cache.messages.type = MessageCacheTypes.guild) :
    (∀ u, (handleGuildDelete st d).cache.members.sGet2 d.id u = none) ∧
    (∀ u, (handleGuildDelete st d).cache.voiceStates.sGet2 d.id u = none) ∧
    (∀ mid, (handleGuildDelete st d).cache.messages.mGet (some d.id) mid = none) ∧
    (handleGuildDelete st d).cache.users = st.cache.users := by
  have hchar :
      (handleGuildDelete st d).cache.members =
        (sweepGuild { st.cache with guilds := st.cache.guilds.sModify d.id (fun g => guildMergeDelete g d) } d.id).members ∧
      (handleGuildDelete st d).cache.voiceStates =
        (sweepGuild { st.cache with guilds := st.cache.guilds.sModify d.id (fun g => guildMergeDelete g d) } d.id).voiceStates ∧
      (handleGuildDelete st d).cache.messages =
        (sweepGuild { st.cache with guilds := st.cache.guilds.sModify d.id (fun g => guildMergeDelete g d) } d.id).messages ∧
      (handleGuildDelete st d).cache.users =
        (sweepGuild { st.cache with guilds := st.cache.guilds.sModify d.id (fun g => guildMergeDelete g d) } d.id).users := by
    unfold handleGuildDelete
    simp only [hg, if_true, not_true, not_not, false_or, not_false_iff, true_or]
    split
    · exact ⟨rfl, rfl, rfl, rfl⟩
    · exact ⟨rfl, rfl, rfl, rfl⟩
  refine ⟨?_, ?_, ?_, ?_⟩
  · intro u
    rw [hchar.1]
    exact sweepGuild_members _ _ _
  · intro u
    rw [hchar.2.1]
    exact sweepGuild_voiceStates _ _ _
  · intro mid
    rw [hchar.2.2.1]
    exact sweepGuild_messages
      { st.cache with guilds := st.cache.guilds.sModify d.id (fun g => guildMergeDelete g d) }
      d.id hty mid
  · rw [hchar.2.2.2]
    exact sweepGuild_users _ _

/-- The handler state of the C1 witness: guild `g1` with one channel, one
member, one voice state, one guild-keyed message, and a user store holding
the member's user. -/
def c1wstate : HandlerState :=
  let g1 : Guild := { id := "g1", memberCount := 1 }
  let ch1 : Channel := { id := "ch1", guildId := some "g1" }
  let m1 : Member := { guildId := "g1", userId := "u1" }
  let vs1 : VoiceState := { serverId := "g1", userId := "u1", channelId := some "ch1" }
  let msg1 : Message :=
    { id := "m1", channelId := "ch1", authorId := "u1", guildId := some "g1" }
  { cache :=
      { guilds := { enabled := true, entries := [("g1", g1)] },
        channels := { enabled := true, entries := [("ch1", ch1)] },
        users := { enabled := true, entries := [("u1", { id := "u1" })] },
        members := { enabled := true, entries := [("g1", [("u1", m1)])] },
        voiceStates := { enabled := true, entries := [("g1", [("u1", vs1)])] },
        messages := { type := MessageCacheTypes.guild, enabled := true,
                      entries := [("g1", [("m1", msg1)])] } } }

/-- Witness for C1: deleting guild `g1` evicts its member, voice state and
guild-keyed message, and leaves the user store untouched. -/
theorem guild_delete_cascade_c1_witness :
    (handleGuildDelete c1wstate { id := "g1" }).cache.members.sGet2 "g1" "u1" = none ∧
    (handleGuildDelete c1wstate { id := "g1" }).cache.voiceStates.sGet2 "g1" "u1" = none ∧
    (handleGuildDelete c1wstate { id := "g1" }).cache.messages.mGet (some "g1") "m1" = none ∧
    (handleGuildDelete c1wstate { id := "g1" }).cache.users = c1wstate.cache.users :=
  ⟨(guild_delete_cascade_c1 c1wstate { id := "g1" } (by decide) (by decide)).1 "u1",
   (guild_delete_cascade_c1 c1wstate { id := "g1" } (by decide) (by decide)).2.1 "u1",
   (guild_delete_cascade_c1 c1wstate { id := "g1" } (by decide) (by decide)).2.2.1 "m1",
   (guild_delete_cascade_c1 c1wstate { id := "g1" } (by decide) (by decide)).2.2.2⟩

end Spec2Proof
